import Mathlib

/-!
# terraform-provider-ganeti: the job-driven client and the size rendering

A shallow embedding of `ganeti/client.go` (`doRequest`, `CreateInstance`,
`DeleteInstance`) and of `transformSize` from `ganeti/resource_instance.go`.

* Go strings are Lean strings, Go `int` is `Int` (every division below is by
  the positive constant 1024, so no operation can overflow).
* Go `error` values are `GoError`; a Go result pair `(v, err)` is an `Except`.
* The network is a `World`: the stream of answers to successive
  `httpClient.Do` calls, and the library functions the code calls
  (`json.Marshal`, `json.Unmarshal`, URL parsing inside `http.NewRequest`,
  base64) as fields.  The theorems quantify over all worlds; the worked
  examples use small scripted ones.
* Effects are explicit: a state `St` counts the exchanges made and keeps the
  trace of exchanges and sleeps.
* The two `for` loops take a fuel argument, the number of iterations they may
  run; `none` means the fuel ran out before the loop returned.
-/

namespace Ganeti

/-! ## Values -/

/-- Go `error` values: those handed back by the libraries (net/http, net/url,
io/ioutil, encoding/json) and those built by `fmt.Errorf`. -/
inductive GoError where
  | lib (text : String)
  | errorf (text : String)
  deriving DecidableEq

/-- The text of an error (`err.Error()`). -/
def GoError.text : GoError → String
  | .lib t => t
  | .errorf t => t

structure Job where
  Status : String
  deriving DecidableEq

structure Error where
  Message : String
  Code : Int
  Explain : String
  deriving DecidableEq

structure Client where
  Username : String
  Password : String
  Connection : String
  SSLVerify : Bool
  deriving DecidableEq

structure Disk where
  Size : String
  deriving DecidableEq

structure NIC where
  Link : String
  deriving DecidableEq

structure BackendParams where
  Memory : String
  VCPUs : Int
  deriving DecidableEq

structure Instance where
  BackendParams : BackendParams
  Disks : List Disk
  DiskTemplate : String
  GroupName : String
  Hypervisor : String
  Name : String
  Mode : String
  NICs : List NIC
  Node : String
  OSType : String
  Version : Int
  deriving DecidableEq

/-- An `http.Request` as far as the client touches it. -/
structure Request where
  Method : String
  URL : String
  Body : Option String
  Header : List (String × String)
  deriving DecidableEq

/-- What `httpClient.Do` hands back: the status code, and the body as
`ioutil.ReadAll(res.Body)` reads it (which can itself fail). -/
structure Response where
  StatusCode : Int
  Body : Except GoError String

/-- The observable effects of the client. -/
inductive Event where
  | roundTrip (insecureSkipVerify : Bool) (timeoutSeconds : Nat) (req : Request)
  | sleep (seconds : Nat)
  deriving DecidableEq

/-- The environment of the client. -/
structure World where
  /-- Go json.Marshal on an instance. -/
  marshal : Instance → Except GoError String
  /-- The error, if any, with which URL parsing makes http.NewRequest fail. -/
  parseURL : String → Option GoError
  /-- Go base64.StdEncoding.EncodeToString. -/
  base64 : String → String
  /-- The answer to the i-th call of httpClient.Do (counted from 0). -/
  roundTrip : Nat → Except GoError Response
  /-- Go json.Unmarshal into a zero-valued Error. -/
  unmarshalError : String → Except GoError Error
  /-- Go json.Unmarshal into a Job that already holds a value. -/
  unmarshalJob : String → Job → Except GoError Job

/-- The effect state: exchanges made so far and everything that happened. -/
structure St where
  calls : Nat
  trace : List Event
  deriving DecidableEq

/-- The state before anything happened. -/
def St.init : St := ⟨0, []⟩

/-! ## Library functions with a fixed meaning -/

/-- The verb `%d` of package fmt. -/
def fmtD (v : Int) : String := toString v

/-- Go strings.HasSuffix. -/
def HasSuffix (s suffix : String) : Bool := suffix.data.isSuffixOf s.data

/-- Go strings.TrimSuffix: `s[:len(s)-len(suffix)]` when `s` ends in `suffix`,
else `s`. -/
def TrimSuffix (s suffix : String) : String :=
  if HasSuffix s suffix then ⟨s.data.take (s.data.length - suffix.data.length)⟩ else s

/-- Go http.NewRequest for the methods the client uses (all valid): it fails
exactly when the URL does not parse, and otherwise records its arguments. -/
def NewRequest (w : World) (method url : String) (body : Option String) :
    Except GoError Request :=
  match w.parseURL url with
  | some err => .error err
  | none => .ok ⟨method, url, body, []⟩

/-- Go Header.Add. -/
def Request.addHeader (req : Request) (key value : String) : Request :=
  ⟨req.Method, req.URL, req.Body, req.Header ++ [(key, value)]⟩

/-! ## client.go -/

def basicAuth (w : World) (username password : String) : String :=
  let auth := username ++ ":" ++ password
  w.base64 auth

/-- The exchange as `doRequest` sends it: both headers added. -/
def sentRequest (w : World) (c : Client) (req : Request) : Request :=
  (req.addHeader "Authorization" ("Basic " ++ basicAuth w c.Username c.Password)).addHeader
    "Content-Type" "application/json"

def doRequest (w : World) (c : Client) (req : Request) (st : St) :
    Except GoError String × St :=
  let req := sentRequest w c req
  let st1 : St := ⟨st.calls + 1, st.trace ++ [Event.roundTrip (!c.SSLVerify) 30 req]⟩
  match w.roundTrip st.calls with
  | .error err => (.error err, st1)
  | .ok res =>
    if res.StatusCode ≠ 200 then
      match res.Body with
      | .error err => (.error err, st1)
      | .ok body =>
        match w.unmarshalError body with
        | .error err => (.error err, st1)
        | .ok e =>
          (.error (.errorf ("[" ++ fmtD e.Code ++ "] " ++ e.Message ++ " - " ++ e.Explain)), st1)
    else
      match res.Body with
      | .error err => (.error err, st1)
      | .ok body => (.ok body, st1)

/-- The `for` loop of CreateInstance. -/
def createLoop (w : World) (c : Client) (inst : Instance) (jobStr : String) :
    Nat → Job → St → Option (Except GoError Instance × St)
  | 0, _, _ => none
  | fuel + 1, job, st =>
    if job.Status = "error" then
      some (.error (.errorf ("Job ID " ++ jobStr ++ " failed to create instance")), st)
    else if job.Status = "success" then
      some (.ok inst, st)
    else
      match NewRequest w "GET" (c.Connection ++ "/jobs/" ++ jobStr) none with
      | .error err => some (.error err, st)
      | .ok req =>
        match doRequest w c req st with
        | (.error err, st1) => some (.error err, st1)
        | (.ok res, st1) =>
          match w.unmarshalJob res job with
          | .error err => some (.error err, st1)
          | .ok job1 => createLoop w c inst jobStr fuel job1 ⟨st1.calls, st1.trace ++ [Event.sleep 10]⟩

def CreateInstance (w : World) (c : Client) (inst : Instance) (fuel : Nat) (st : St) :
    Option (Except GoError Instance × St) :=
  match w.marshal inst with
  | .error err => some (.error err, st)
  | .ok rb =>
    match NewRequest w "POST" (c.Connection ++ "/instances") (some rb) with
    | .error err => some (.error err, st)
    | .ok req =>
      match doRequest w c req st with
      | (.error err, st1) => some (.error err, st1)
      | (.ok jobByte, st1) =>
        let jobStr := TrimSuffix jobByte "\n"
        createLoop w c inst jobStr fuel ⟨"pending"⟩ st1

/-- The `for` loop of DeleteInstance. -/
def deleteLoop (w : World) (c : Client) (jobStr : String) :
    Nat → Job → St → Option (Except GoError Unit × St)
  | 0, _, _ => none
  | fuel + 1, job, st =>
    if job.Status = "error" then
      some (.error (.errorf ("Job ID " ++ jobStr ++ " failed to delete instance")), st)
    else if job.Status = "success" then
      some (.ok (), st)
    else
      match NewRequest w "GET" (c.Connection ++ "/jobs/" ++ jobStr) none with
      | .error err => some (.error err, st)
      | .ok req =>
        match doRequest w c req st with
        | (.error err, st1) => some (.error err, st1)
        | (.ok res, st1) =>
          match w.unmarshalJob res job with
          | .error err => some (.error err, st1)
          | .ok job1 => deleteLoop w c jobStr fuel job1 ⟨st1.calls, st1.trace ++ [Event.sleep 10]⟩

def DeleteInstance (w : World) (c : Client) (id : String) (fuel : Nat) (st : St) :
    Option (Except GoError Unit × St) :=
  match NewRequest w "DELETE" (c.Connection ++ "/instances/" ++ id) none with
  | .error err => some (.error err, st)
  | .ok req =>
    match doRequest w c req st with
    | (.error err, st1) => some (.error err, st1)
    | (.ok jobByte, st1) =>
      let jobStr := TrimSuffix jobByte "\n"
      deleteLoop w c jobStr fuel ⟨"pending"⟩ st1

/-! ## resource_instance.go -/

/-- Go `/` on `int` truncates toward zero (`Int.tdiv`); each `val` shadows the
one before it, so the final `else` prints `n / 1024`. -/
def transformSize (n : Int) : String :=
  let val := ((n.tdiv 1024).tdiv 1024).tdiv 1024
  if val > 0 then
    fmtD val ++ "P"
  else
    let val := (n.tdiv 1024).tdiv 1024
    if val > 0 then
      fmtD val ++ "T"
    else
      let val := n.tdiv 1024
      if val > 0 then
        fmtD val ++ "G"
      else
        fmtD val ++ "M"

/-! ## Vocabulary for stating the properties -/

/-- How a run of the poll loop can end. -/
inductive PollOutcome where
  | success
  | jobFailed
  | fetchFailed (err : GoError)
  deriving DecidableEq

/-- The loop that CreateInstance and DeleteInstance both contain, with the two
`return` statements of the `switch` left abstract. -/
def pollLoop (w : World) (c : Client) (jobStr : String) :
    Nat → Job → St → Option (PollOutcome × St)
  | 0, _, _ => none
  | fuel + 1, job, st =>
    if job.Status = "error" then
      some (.jobFailed, st)
    else if job.Status = "success" then
      some (.success, st)
    else
      match NewRequest w "GET" (c.Connection ++ "/jobs/" ++ jobStr) none with
      | .error err => some (.fetchFailed err, st)
      | .ok req =>
        match doRequest w c req st with
        | (.error err, st1) => some (.fetchFailed err, st1)
        | (.ok res, st1) =>
          match w.unmarshalJob res job with
          | .error err => some (.fetchFailed err, st1)
          | .ok job1 => pollLoop w c jobStr fuel job1 ⟨st1.calls, st1.trace ++ [Event.sleep 10]⟩

/-- An outcome as CreateInstance returns it. -/
def PollOutcome.toCreate (inst : Instance) (jobStr : String) :
    PollOutcome → Except GoError Instance
  | .success => .ok inst
  | .jobFailed => .error (.errorf ("Job ID " ++ jobStr ++ " failed to create instance"))
  | .fetchFailed err => .error err

/-- An outcome as DeleteInstance returns it. -/
def PollOutcome.toDelete (jobStr : String) : PollOutcome → Except GoError Unit
  | .success => .ok ()
  | .jobFailed => .error (.errorf ("Job ID " ++ jobStr ++ " failed to delete instance"))
  | .fetchFailed err => .error err

/-- A status that ends the loop. -/
def Terminal (s : String) : Prop := s = "success" ∨ s = "error"

instance (s : String) : Decidable (Terminal s) := by unfold Terminal; infer_instance

/-- Exchange `i` is answered 200 with a body that decodes, over a job record
holding `prev`, to status `s`. -/
def DecodesTo (w : World) (i : Nat) (prev : Job) (s : String) : Prop :=
  ∃ body, w.roundTrip i = .ok ⟨200, .ok body⟩ ∧ w.unmarshalJob body prev = .ok ⟨s⟩

/-- From exchange `i` on, with the job record holding `prev`, the exchanges
decode one after the other to the statuses of the list, none terminal. -/
def PendingRun (w : World) : Nat → Job → List String → Prop
  | _, _, [] => True
  | i, prev, s :: rest => ¬ Terminal s ∧ DecodesTo w i prev s ∧ PendingRun w (i + 1) ⟨s⟩ rest

/-- The job record after the statuses of the list were decoded in turn. -/
def endJob : Job → List String → Job
  | prev, [] => prev
  | _, s :: rest => endJob ⟨s⟩ rest

/-- The URL of the job resource. -/
def jobURL (c : Client) (jobStr : String) : String := c.Connection ++ "/jobs/" ++ jobStr

/-- The exchange event of one job-status fetch. -/
def statusEvent (w : World) (c : Client) (jobStr : String) : Event :=
  Event.roundTrip (!c.SSLVerify) 30 (sentRequest w c ⟨"GET", jobURL c jobStr, none, []⟩)

/-- The exchange event of the POST that triggers a creation. -/
def createEvent (w : World) (c : Client) (rb : String) : Event :=
  Event.roundTrip (!c.SSLVerify) 30
    (sentRequest w c ⟨"POST", c.Connection ++ "/instances", some rb, []⟩)

/-- The exchange event of the DELETE that triggers a deletion. -/
def deleteEvent (w : World) (c : Client) (id : String) : Event :=
  Event.roundTrip (!c.SSLVerify) 30
    (sentRequest w c ⟨"DELETE", c.Connection ++ "/instances/" ++ id, none, []⟩)

/-- The trace of `n` fetches that each decoded: fetch, sleep, fetch, sleep, ... -/
def pollTrace (g : Event) : Nat → List Event
  | 0 => []
  | n + 1 => g :: Event.sleep 10 :: pollTrace g n

/-- Whether an event is a GET on the given job resource. -/
def Event.isStatusRequest (c : Client) (jobStr : String) : Event → Bool
  | .roundTrip _ _ req => req.Method == "GET" && req.URL == jobURL c jobStr
  | .sleep _ => false

/-- Whether an event is a suspension. -/
def Event.isSleep : Event → Bool
  | .roundTrip _ _ _ => false
  | .sleep _ => true

/-- Number of job-status requests in a trace. -/
def statusRequests (c : Client) (jobStr : String) (tr : List Event) : Nat :=
  tr.countP (Event.isStatusRequest c jobStr)

/-- Number of suspensions in a trace. -/
def sleeps (tr : List Event) : Nat := tr.countP Event.isSleep

/-- The POST that triggers a creation is built and answered 200 with body
`jobByte` at exchange `i`; `rb` is the marshalled instance. -/
def CreateTriggered (w : World) (c : Client) (inst : Instance) (i : Nat)
    (rb jobByte : String) : Prop :=
  w.marshal inst = .ok rb ∧ w.parseURL (c.Connection ++ "/instances") = none ∧
    w.roundTrip i = .ok ⟨200, .ok jobByte⟩

/-- The DELETE that triggers a deletion is built and answered 200 with body
`jobByte` at exchange `i`. -/
def DeleteTriggered (w : World) (c : Client) (id : String) (i : Nat) (jobByte : String) : Prop :=
  w.parseURL (c.Connection ++ "/instances/" ++ id) = none ∧
    w.roundTrip i = .ok ⟨200, .ok jobByte⟩

/-- The text `part` occurs in `text`. -/
def Contains (text part : String) : Prop := ∃ pre post, text = pre ++ part ++ post

/-- The status fetch at exchange `i`, made over a job record holding `prev`,
fails with `e`: doRequest returns `e`, or the body it returns does not decode
as a job. -/
def FetchFails (w : World) (c : Client) (i : Nat) (prev : Job) (e : GoError) : Prop :=
  (∃ req st0, st0.calls = i ∧ (doRequest w c req st0).1 = .error e) ∨
    (∃ body, w.roundTrip i = .ok ⟨200, .ok body⟩ ∧ w.unmarshalJob body prev = .error e)

/-- What an iteration does from a non-terminal status once its request is
built: the exchange is made, so every state handed on holds the status
request; the run ends there when the fetch fails, and otherwise sleeps and
goes on with the decoded job record. -/
def nextFetch (w : World) (c : Client) (jobStr : String) (fuel : Nat) (job : Job) (st : St) :
    Option (PollOutcome × St) :=
  match (doRequest w c ⟨"GET", c.Connection ++ "/jobs/" ++ jobStr, none, []⟩ st).1 with
  | .error err =>
    some (.fetchFailed err, ⟨st.calls + 1, st.trace ++
      [Event.roundTrip (!c.SSLVerify) 30
        (sentRequest w c ⟨"GET", c.Connection ++ "/jobs/" ++ jobStr, none, []⟩)]⟩)
  | .ok res =>
    match w.unmarshalJob res job with
    | .error err =>
      some (.fetchFailed err, ⟨st.calls + 1, st.trace ++
        [Event.roundTrip (!c.SSLVerify) 30
          (sentRequest w c ⟨"GET", c.Connection ++ "/jobs/" ++ jobStr, none, []⟩)]⟩)
    | .ok job1 =>
      pollLoop w c jobStr fuel job1 ⟨st.calls + 1, st.trace ++
        [Event.roundTrip (!c.SSLVerify) 30
          (sentRequest w c ⟨"GET", c.Connection ++ "/jobs/" ++ jobStr, none, []⟩),
          Event.sleep 10]⟩

/-- The outcome that a terminal status leads to. -/
def outcomeOf (s : String) : PollOutcome := if s = "error" then .jobFailed else .success

/-! ## Concrete worlds for worked examples -/

/-- The JSON text of a job with the given status. -/
def jobBody (s : String) : String := "\x7b\"status\":\"" ++ s ++ "\"\x7d"

/-- The text the examples marshal an instance to. -/
def instanceBody (inst : Instance) : String :=
  "\x7b\"instance_name\":\"" ++ inst.Name ++ "\"\x7d"

/-- A decoder for the job bodies of the examples: a known status replaces the
one held, the empty object leaves it, anything else is a syntax error. -/
def demoUnmarshalJob (body : String) (job : Job) : Except GoError Job :=
  match ["pending", "running", "waiting", "queued", "success", "error", ""].find?
      (fun s => jobBody s == body) with
  | some s => .ok ⟨s⟩
  | none =>
    if body = "\x7b\x7d" then .ok job
    else .error (.lib "invalid character looking for beginning of value")

/-- The error payload of the examples. -/
def notFoundBody : String :=
  "\x7b\"code\": 404, \"message\": \"Not Found\", \"explain\": \"Nothing matches the given URI\"\x7d"

/-- A decoder for the error payloads of the examples. -/
def demoUnmarshalError (body : String) : Except GoError Error :=
  if body = notFoundBody then .ok ⟨"Not Found", 404, "Nothing matches the given URI"⟩
  else .error (.lib "invalid character looking for beginning of value")

/-- URL parsing as far as the examples need it: control characters are
rejected, as net/url does. -/
def demoParseURL (url : String) : Option GoError :=
  if url.data.any (fun ch => decide (ch.toNat < 32) || decide (ch.toNat = 127)) then
    some (.lib "net/url: invalid control character in URL")
  else none

/-- A world that answers the successive exchanges with the given script and
refuses the connection once the script is used up. -/
def scriptWorld (script : List (Except GoError Response)) : World where
  marshal := fun inst => .ok (instanceBody inst)
  parseURL := demoParseURL
  base64 := fun s => s
  roundTrip := fun i => script.getD i (.error (.lib "connection refused"))
  unmarshalError := demoUnmarshalError
  unmarshalJob := demoUnmarshalJob

/-- A 200 answer with the given body. -/
def ok200 (body : String) : Except GoError Response := .ok ⟨200, .ok body⟩

def demoClient : Client := ⟨"admin", "secret", "https://ganeti.example:5080/2", true⟩

def demoInstance : Instance :=
  ⟨⟨"2G", 2⟩, [⟨"20G"⟩], "plain", "", "kvm", "vm1.example", "create", [⟨"br0"⟩], "", "debian", 1⟩

/-- Job 42 answers pending, pending, success. -/
def worldPendingPendingSuccess : World :=
  scriptWorld [ok200 "42\n", ok200 (jobBody "pending"), ok200 (jobBody "pending"),
    ok200 (jobBody "success")]

/-- Job 42 answers running, error. -/
def worldRunningError : World :=
  scriptWorld [ok200 "42\n", ok200 (jobBody "running"), ok200 (jobBody "error")]

/-- Job 42 answers queued, then the empty status, then success. -/
def worldQueuedBlankSuccess : World :=
  scriptWorld [ok200 "42\n", ok200 (jobBody "queued"), ok200 (jobBody ""),
    ok200 (jobBody "success")]

/-- The trigger is answered with a body that ends in two newlines. -/
def worldDoubleNewline : World := scriptWorld [ok200 "42\n\n", ok200 (jobBody "success")]

/-- Job 42 answers pending, then a body that is not a job. -/
def worldPendingGarbage : World :=
  scriptWorld [ok200 "42\n", ok200 (jobBody "pending"), ok200 "<html>"]

/-- Job 42 answers success at once. -/
def worldSuccess : World := scriptWorld [ok200 "42\n", ok200 (jobBody "success")]

/-- Job 42 answers pending, then the job resource answers 404. -/
def worldPendingNotFound : World :=
  scriptWorld [ok200 "42\n", ok200 (jobBody "pending"), .ok ⟨404, .ok notFoundBody⟩]

end Ganeti

/-! # Theorems -/

namespace Ganeti

/-! ## The transport -/

theorem doRequest_snd (w : World) (c : Client) (req : Request) (st : St) :
    (doRequest w c req st).2 =
      ⟨st.calls + 1, st.trace ++ [Event.roundTrip (!c.SSLVerify) 30 (sentRequest w c req)]⟩ := by
  unfold doRequest
  simp only []
  split
  · rfl
  · split
    · split
      · rfl
      · split <;> rfl
    · split <;> rfl

theorem doRequest_fst_congr (w : World) (c : Client) (req req2 : Request) (st st2 : St)
    (h : st.calls = st2.calls) : (doRequest w c req st).1 = (doRequest w c req2 st2).1 := by
  unfold doRequest
  simp only [h]
  split
  · rfl
  · split
    · split
      · rfl
      · split <;> rfl
    · split <;> rfl

theorem doRequest_ok_iff (w : World) (c : Client) (req : Request) (st : St) (b : String) :
    (doRequest w c req st).1 = .ok b ↔ w.roundTrip st.calls = .ok ⟨200, .ok b⟩ := by
  unfold doRequest
  simp only []
  constructor
  · intro h
    split at h
    · cases h
    · rename_i res hres
      split at h
      · split at h
        · cases h
        · split at h <;> cases h
      · rename_i hcode
        split at h
        · cases h
        · rename_i body hbody
          simp only [Except.ok.injEq] at h
          subst h
          have hc : res.StatusCode = 200 := by simpa using hcode
          rw [hres]
          cases res
          simp_all
  · intro h
    rw [h]
    simp

/-! ## The two loops are one loop -/

theorem createLoop_eq_pollLoop (w : World) (c : Client) (inst : Instance) (jobStr : String)
    (fuel : Nat) (job : Job) (st : St) :
    createLoop w c inst jobStr fuel job st =
      (pollLoop w c jobStr fuel job st).map (fun r => (r.1.toCreate inst jobStr, r.2)) := by
  induction fuel generalizing job st with
  | zero => rfl
  | succ fuel ih =>
    unfold createLoop pollLoop
    by_cases h1 : job.Status = "error"
    · simp [h1, PollOutcome.toCreate]
    · by_cases h2 : job.Status = "success"
      · simp [h2, PollOutcome.toCreate]
      · simp only [h1, h2, if_false]
        cases hreq : NewRequest w "GET" (c.Connection ++ "/jobs/" ++ jobStr) none with
        | error err => simp [PollOutcome.toCreate]
        | ok req =>
          simp only []
          rcases hdo : doRequest w c req st with ⟨r, st1⟩
          cases r with
          | error err => simp [PollOutcome.toCreate]
          | ok res =>
            simp only []
            cases hj : w.unmarshalJob res job with
            | error err => simp [PollOutcome.toCreate]
            | ok job1 => simpa using ih job1 ⟨st1.calls, st1.trace ++ [Event.sleep 10]⟩

theorem deleteLoop_eq_pollLoop (w : World) (c : Client) (jobStr : String)
    (fuel : Nat) (job : Job) (st : St) :
    deleteLoop w c jobStr fuel job st =
      (pollLoop w c jobStr fuel job st).map (fun r => (r.1.toDelete jobStr, r.2)) := by
  induction fuel generalizing job st with
  | zero => rfl
  | succ fuel ih =>
    unfold deleteLoop pollLoop
    by_cases h1 : job.Status = "error"
    · simp [h1, PollOutcome.toDelete]
    · by_cases h2 : job.Status = "success"
      · simp [h2, PollOutcome.toDelete]
      · simp only [h1, h2, if_false]
        cases hreq : NewRequest w "GET" (c.Connection ++ "/jobs/" ++ jobStr) none with
        | error err => simp [PollOutcome.toDelete]
        | ok req =>
          simp only []
          rcases hdo : doRequest w c req st with ⟨r, st1⟩
          cases r with
          | error err => simp [PollOutcome.toDelete]
          | ok res =>
            simp only []
            cases hj : w.unmarshalJob res job with
            | error err => simp [PollOutcome.toDelete]
            | ok job1 => simpa using ih job1 ⟨st1.calls, st1.trace ++ [Event.sleep 10]⟩

/-! ## One iteration -/

theorem NewRequest_ok (w : World) (method url : String) (body : Option String)
    (h : w.parseURL url = none) : NewRequest w method url body = .ok ⟨method, url, body, []⟩ := by
  simp [NewRequest, h]

theorem NewRequest_error (w : World) (method url : String) (body : Option String)
    (err : GoError) (h : w.parseURL url = some err) :
    NewRequest w method url body = .error err := by
  simp [NewRequest, h]

theorem pollLoop_error (w : World) (c : Client) (jobStr : String) (fuel : Nat) (job : Job)
    (st : St) (h : job.Status = "error") :
    pollLoop w c jobStr (fuel + 1) job st = some (.jobFailed, st) := by
  simp [pollLoop, h]

theorem pollLoop_success (w : World) (c : Client) (jobStr : String) (fuel : Nat) (job : Job)
    (st : St) (h : job.Status = "success") :
    pollLoop w c jobStr (fuel + 1) job st = some (.success, st) := by
  simp [pollLoop, h]

theorem pollLoop_badURL (w : World) (c : Client) (jobStr : String) (fuel : Nat) (job : Job)
    (st : St) (hnt : ¬ Terminal job.Status) (err : GoError)
    (hurl : w.parseURL (jobURL c jobStr) = some err) :
    pollLoop w c jobStr (fuel + 1) job st = some (.fetchFailed err, st) := by
  have h1 : job.Status ≠ "error" := fun h => hnt (Or.inr h)
  have h2 : job.Status ≠ "success" := fun h => hnt (Or.inl h)
  have hreq := NewRequest_error w "GET" (jobURL c jobStr) none err hurl
  unfold jobURL at hreq
  simp [pollLoop, h1, h2, hreq]

/-- One iteration on a non-terminal status whose request can be built: the
exchange is made, and the loop goes on exactly when the answer decodes. -/
theorem pollLoop_fetch (w : World) (c : Client) (jobStr : String) (fuel : Nat) (job : Job)
    (st : St) (hnt : ¬ Terminal job.Status) (hurl : w.parseURL (jobURL c jobStr) = none) :
    pollLoop w c jobStr (fuel + 1) job st =
      match (doRequest w c ⟨"GET", jobURL c jobStr, none, []⟩ st).1 with
      | .error err =>
        some (.fetchFailed err, ⟨st.calls + 1, st.trace ++ [statusEvent w c jobStr]⟩)
      | .ok res =>
        match w.unmarshalJob res job with
        | .error err =>
          some (.fetchFailed err, ⟨st.calls + 1, st.trace ++ [statusEvent w c jobStr]⟩)
        | .ok job1 =>
          pollLoop w c jobStr fuel job1
            ⟨st.calls + 1, st.trace ++ [statusEvent w c jobStr, Event.sleep 10]⟩ := by
  have h1 : job.Status ≠ "error" := fun h => hnt (Or.inr h)
  have h2 : job.Status ≠ "success" := fun h => hnt (Or.inl h)
  have hreq := NewRequest_ok w "GET" (jobURL c jobStr) none hurl
  have hsnd := doRequest_snd w c ⟨"GET", jobURL c jobStr, none, []⟩ st
  unfold jobURL at hreq
  rw [pollLoop]
  simp only [h1, h2, if_false, hreq]
  rcases hdo : doRequest w c ⟨"GET", c.Connection ++ "/jobs/" ++ jobStr, none, []⟩ st
    with ⟨r, st1⟩
  have hdo2 : doRequest w c ⟨"GET", jobURL c jobStr, none, []⟩ st = (r, st1) := hdo
  rw [hdo2] at hsnd
  simp only [] at hsnd
  subst hsnd
  simp only [jobURL, hdo]
  cases r with
  | error err => simp [statusEvent, jobURL]
  | ok res =>
    simp only []
    cases hj : w.unmarshalJob res job with
    | error err => simp [statusEvent, jobURL]
    | ok job1 => simp [statusEvent, jobURL]

/-! ## Traces -/

theorem pollTrace_append (g : Event) (n : Nat) (tr : List Event) :
    tr ++ g :: Event.sleep 10 :: pollTrace g n = (tr ++ [g, Event.sleep 10]) ++ pollTrace g n := by
  simp

theorem pollTrace_succ_right (g : Event) (n : Nat) :
    pollTrace g (n + 1) = pollTrace g n ++ [g, Event.sleep 10] := by
  induction n with
  | zero => rfl
  | succ n ih =>
    show g :: Event.sleep 10 :: pollTrace g (n + 1) =
      (g :: Event.sleep 10 :: pollTrace g n) ++ [g, Event.sleep 10]
    rw [ih]
    rfl

theorem isStatusRequest_statusEvent (w : World) (c : Client) (jobStr : String) :
    (statusEvent w c jobStr).isStatusRequest c jobStr = true := by
  simp [statusEvent, Event.isStatusRequest, sentRequest, Request.addHeader]

theorem statusRequests_pollTrace (w : World) (c : Client) (jobStr : String) (n : Nat) :
    statusRequests c jobStr (pollTrace (statusEvent w c jobStr) n) = n := by
  induction n with
  | zero => rfl
  | succ n ih =>
    unfold statusRequests at ih ⊢
    have h1 := isStatusRequest_statusEvent w c jobStr
    have h2 : (Event.sleep 10).isStatusRequest c jobStr = false := rfl
    rw [pollTrace, List.countP_cons, List.countP_cons, ih]
    simp [h1, h2]

theorem sleeps_pollTrace (w : World) (c : Client) (jobStr : String) (n : Nat) :
    sleeps (pollTrace (statusEvent w c jobStr) n) = n := by
  induction n with
  | zero => rfl
  | succ n ih =>
    unfold sleeps at ih ⊢
    rw [pollTrace, List.countP_cons, List.countP_cons, ih]
    simp [statusEvent, Event.isSleep]

theorem statusRequests_createEvent (w : World) (c : Client) (rb jobStr : String) :
    statusRequests c jobStr [createEvent w c rb] = 0 := by
  simp [statusRequests, createEvent, Event.isStatusRequest, sentRequest, Request.addHeader]

theorem statusRequests_deleteEvent (w : World) (c : Client) (id jobStr : String) :
    statusRequests c jobStr [deleteEvent w c id] = 0 := by
  simp [statusRequests, deleteEvent, Event.isStatusRequest, sentRequest, Request.addHeader]

theorem statusRequests_append (c : Client) (jobStr : String) (a b : List Event) :
    statusRequests c jobStr (a ++ b) = statusRequests c jobStr a + statusRequests c jobStr b := by
  simp [statusRequests]

theorem sleeps_append (a b : List Event) : sleeps (a ++ b) = sleeps a + sleeps b := by
  simp [sleeps]

theorem getLast?_cons_concat (a x : Event) (l : List Event) :
    (a :: (l ++ [x])).getLast? = some x := by
  have h : a :: (l ++ [x]) = (a :: l) ++ [x] := rfl
  rw [h, List.getLast?_concat]

/-! ## Runs of the loop -/

theorem pollLoop_decodes (w : World) (c : Client) (jobStr : String) (fuel : Nat) (job : Job)
    (st : St) (hnt : ¬ Terminal job.Status) (hurl : w.parseURL (jobURL c jobStr) = none)
    (s : String) (hd : DecodesTo w st.calls job s) :
    pollLoop w c jobStr (fuel + 1) job st =
      pollLoop w c jobStr fuel ⟨s⟩
        ⟨st.calls + 1, st.trace ++ [statusEvent w c jobStr, Event.sleep 10]⟩ := by
  obtain ⟨body, hb, hj⟩ := hd
  have hdo := (doRequest_ok_iff w c ⟨"GET", jobURL c jobStr, none, []⟩ st body).mpr hb
  rw [pollLoop_fetch w c jobStr fuel job st hnt hurl, hdo]
  simp only [hj]

theorem endJob_not_terminal (w : World) (ss : List String) :
    ∀ (i : Nat) (prev : Job), ¬ Terminal prev.Status → PendingRun w i prev ss →
      ¬ Terminal (endJob prev ss).Status := by
  induction ss with
  | nil => intro i prev h _; exact h
  | cons s rest ih =>
    intro i prev _ hrun
    exact ih (i + 1) ⟨s⟩ hrun.1 hrun.2.2

theorem pollLoop_run (w : World) (c : Client) (jobStr : String)
    (hurl : w.parseURL (jobURL c jobStr) = none) (fuel : Nat) (ss : List String) :
    ∀ (prev : Job) (st : St), ¬ Terminal prev.Status → PendingRun w st.calls prev ss →
      pollLoop w c jobStr (fuel + ss.length) prev st =
        pollLoop w c jobStr fuel (endJob prev ss)
          ⟨st.calls + ss.length, st.trace ++ pollTrace (statusEvent w c jobStr) ss.length⟩ := by
  induction ss with
  | nil => intro prev st _ _; simp [endJob, pollTrace]
  | cons s rest ih =>
    intro prev st hnt hrun
    obtain ⟨hs, hd, hrest⟩ := hrun
    have hstep := pollLoop_decodes w c jobStr (fuel + rest.length) prev st hnt hurl s hd
    have hlen : fuel + (s :: rest).length = fuel + rest.length + 1 := by simp; omega
    rw [hlen, hstep]
    have := ih ⟨s⟩ ⟨st.calls + 1, st.trace ++ [statusEvent w c jobStr, Event.sleep 10]⟩ hs hrest
    rw [this]
    simp only [endJob, List.length_cons, pollTrace]
    congr 2
    · omega
    · simp

theorem pollLoop_mono (w : World) (c : Client) (jobStr : String) (fuel : Nat) :
    ∀ (job : Job) (st : St) (x : PollOutcome × St),
      pollLoop w c jobStr fuel job st = some x → pollLoop w c jobStr (fuel + 1) job st = some x := by
  induction fuel with
  | zero => intro job st x h; simp [pollLoop] at h
  | succ fuel ih =>
    intro job st x h
    by_cases he : job.Status = "error"
    · rw [pollLoop_error w c jobStr _ job st he] at h ⊢; exact h
    · by_cases hs : job.Status = "success"
      · rw [pollLoop_success w c jobStr _ job st hs] at h ⊢; exact h
      · have hnt : ¬ Terminal job.Status := fun ht => ht.elim hs he
        cases hurl : w.parseURL (jobURL c jobStr) with
        | some err => rw [pollLoop_badURL w c jobStr _ job st hnt err hurl] at h ⊢; exact h
        | none =>
          rw [pollLoop_fetch w c jobStr _ job st hnt hurl] at h ⊢
          split
          · rename_i err herr
            rw [herr] at h; exact h
          · rename_i res hres
            rw [hres] at h
            simp only [] at h
            split
            · rename_i err herr
              rw [herr] at h; exact h
            · rename_i job1 hj
              rw [hj] at h
              exact ih _ _ _ h

theorem pollLoop_mono_le (w : World) (c : Client) (jobStr : String) (fuel more : Nat)
    (job : Job) (st : St) (x : PollOutcome × St)
    (h : pollLoop w c jobStr fuel job st = some x) :
    pollLoop w c jobStr (fuel + more) job st = some x := by
  induction more with
  | zero => exact h
  | succ more ih => exact pollLoop_mono w c jobStr (fuel + more) job st x ih

/-- A run of non-terminal statuses followed by a terminal one. -/
theorem pollLoop_run_terminal (w : World) (c : Client) (jobStr : String)
    (hurl : w.parseURL (jobURL c jobStr) = none) (extra : Nat) (ss : List String)
    (prev : Job) (st : St) (hnt : ¬ Terminal prev.Status)
    (hrun : PendingRun w st.calls prev ss) (s : String) (hterm : Terminal s)
    (hlast : DecodesTo w (st.calls + ss.length) (endJob prev ss) s) :
    pollLoop w c jobStr (ss.length + 2 + extra) prev st =
      some (outcomeOf s, ⟨st.calls + (ss.length + 1),
        st.trace ++ pollTrace (statusEvent w c jobStr) (ss.length + 1)⟩) := by
  have h1 := pollLoop_run w c jobStr hurl 2 ss prev st hnt hrun
  have hend := endJob_not_terminal w ss st.calls prev hnt hrun
  have h2 := pollLoop_decodes w c jobStr 1 (endJob prev ss)
    ⟨st.calls + ss.length, st.trace ++ pollTrace (statusEvent w c jobStr) ss.length⟩
    hend hurl s hlast
  have h3 : pollLoop w c jobStr 1 ⟨s⟩
      ⟨st.calls + ss.length + 1,
        st.trace ++ pollTrace (statusEvent w c jobStr) ss.length ++
          [statusEvent w c jobStr, Event.sleep 10]⟩ =
      some (outcomeOf s, ⟨st.calls + ss.length + 1,
        st.trace ++ pollTrace (statusEvent w c jobStr) ss.length ++
          [statusEvent w c jobStr, Event.sleep 10]⟩) := by
    by_cases he : s = "error"
    · rw [pollLoop_error w c jobStr 0 ⟨s⟩ _ he]; simp [outcomeOf, he]
    · have hs : s = "success" := hterm.elim id (fun h => absurd h he)
      rw [pollLoop_success w c jobStr 0 ⟨s⟩ _ hs]; simp [outcomeOf, he]
  have hfuel : ss.length + 2 + extra = (2 + ss.length) + extra := by omega
  rw [hfuel]
  apply pollLoop_mono_le
  rw [h1, h2, h3, pollTrace_succ_right]
  simp [Nat.add_assoc]

/-- A run of non-terminal statuses followed by a fetch that fails. -/
theorem pollLoop_run_fail (w : World) (c : Client) (jobStr : String)
    (hurl : w.parseURL (jobURL c jobStr) = none) (extra : Nat) (ss : List String)
    (prev : Job) (st : St) (hnt : ¬ Terminal prev.Status)
    (hrun : PendingRun w st.calls prev ss) (e : GoError)
    (hfail : (∃ req st0, st0.calls = st.calls + ss.length ∧ (doRequest w c req st0).1 = .error e) ∨
      (∃ body, w.roundTrip (st.calls + ss.length) = .ok ⟨200, .ok body⟩ ∧
        w.unmarshalJob body (endJob prev ss) = .error e)) :
    pollLoop w c jobStr (ss.length + 1 + extra) prev st =
      some (.fetchFailed e, ⟨st.calls + (ss.length + 1),
        st.trace ++ pollTrace (statusEvent w c jobStr) ss.length ++ [statusEvent w c jobStr]⟩) := by
  have h1 := pollLoop_run w c jobStr hurl 1 ss prev st hnt hrun
  have hend := endJob_not_terminal w ss st.calls prev hnt hrun
  have h2 := pollLoop_fetch w c jobStr 0 (endJob prev ss)
    ⟨st.calls + ss.length, st.trace ++ pollTrace (statusEvent w c jobStr) ss.length⟩ hend hurl
  have hfuel : ss.length + 1 + extra = (1 + ss.length) + extra := by omega
  rw [hfuel]
  apply pollLoop_mono_le
  rw [h1, h2]
  rcases hfail with ⟨req, st0, hcalls, hdo⟩ | ⟨body, hb, hj⟩
  · have hc := doRequest_fst_congr w c ⟨"GET", jobURL c jobStr, none, []⟩ req
      ⟨st.calls + ss.length, st.trace ++ pollTrace (statusEvent w c jobStr) ss.length⟩ st0
      hcalls.symm
    rw [hc, hdo]
    simp [Nat.add_assoc]
  · have hdo := (doRequest_ok_iff w c ⟨"GET", jobURL c jobStr, none, []⟩
      ⟨st.calls + ss.length, st.trace ++ pollTrace (statusEvent w c jobStr) ss.length⟩ body).mpr hb
    rw [hdo]
    simp only [hj]
    simp [Nat.add_assoc]

/-! ## The triggering request -/

theorem CreateInstance_triggered (w : World) (c : Client) (inst : Instance) (fuel : Nat)
    (st : St) (rb jobByte : String) (h : CreateTriggered w c inst st.calls rb jobByte) :
    CreateInstance w c inst fuel st =
      (pollLoop w c (TrimSuffix jobByte "\n") fuel ⟨"pending"⟩
        ⟨st.calls + 1, st.trace ++ [createEvent w c rb]⟩).map
        (fun r => (r.1.toCreate inst (TrimSuffix jobByte "\n"), r.2)) := by
  obtain ⟨hm, hp, hr⟩ := h
  have hreq := NewRequest_ok w "POST" (c.Connection ++ "/instances") (some rb) hp
  have hdo := (doRequest_ok_iff w c ⟨"POST", c.Connection ++ "/instances", some rb, []⟩
    st jobByte).mpr hr
  have hsnd := doRequest_snd w c ⟨"POST", c.Connection ++ "/instances", some rb, []⟩ st
  unfold CreateInstance
  simp only [hm, hreq]
  rcases hpair : doRequest w c ⟨"POST", c.Connection ++ "/instances", some rb, []⟩ st
    with ⟨r, st1⟩
  rw [hpair] at hdo hsnd
  simp only [] at hdo hsnd
  subst hdo hsnd
  simp only [createLoop_eq_pollLoop, createEvent]

theorem DeleteInstance_triggered (w : World) (c : Client) (id : String) (fuel : Nat)
    (st : St) (jobByte : String) (h : DeleteTriggered w c id st.calls jobByte) :
    DeleteInstance w c id fuel st =
      (pollLoop w c (TrimSuffix jobByte "\n") fuel ⟨"pending"⟩
        ⟨st.calls + 1, st.trace ++ [deleteEvent w c id]⟩).map
        (fun r => (r.1.toDelete (TrimSuffix jobByte "\n"), r.2)) := by
  obtain ⟨hp, hr⟩ := h
  have hreq := NewRequest_ok w "DELETE" (c.Connection ++ "/instances/" ++ id) none hp
  have hdo := (doRequest_ok_iff w c ⟨"DELETE", c.Connection ++ "/instances/" ++ id, none, []⟩
    st jobByte).mpr hr
  have hsnd := doRequest_snd w c ⟨"DELETE", c.Connection ++ "/instances/" ++ id, none, []⟩ st
  unfold DeleteInstance
  simp only [hreq]
  rcases hpair : doRequest w c ⟨"DELETE", c.Connection ++ "/instances/" ++ id, none, []⟩ st
    with ⟨r, st1⟩
  rw [hpair] at hdo hsnd
  simp only [] at hdo hsnd
  subst hdo hsnd
  simp only [deleteLoop_eq_pollLoop, deleteEvent]

theorem pending_not_terminal : ¬ Terminal (Job.mk "pending").Status := by
  unfold Terminal; decide


example : CreateInstance worldPendingPendingSuccess demoClient demoInstance 10 St.init =
    some (.ok demoInstance, ⟨4, createEvent worldPendingPendingSuccess demoClient (instanceBody demoInstance) ::
      pollTrace (statusEvent worldPendingPendingSuccess demoClient "42") 3⟩) := by rfl

/-! ## Whole runs of CreateInstance and DeleteInstance -/

theorem CreateInstance_run_terminal (w : World) (c : Client) (inst : Instance)
    (rb jobByte : String) (ss : List String) (extra : Nat) (s : String)
    (htrig : CreateTriggered w c inst 0 rb jobByte)
    (hurl : w.parseURL (jobURL c (TrimSuffix jobByte "\n")) = none)
    (hrun : PendingRun w 1 ⟨"pending"⟩ ss) (hterm : Terminal s)
    (hlast : DecodesTo w (1 + ss.length) (endJob ⟨"pending"⟩ ss) s) :
    CreateInstance w c inst (ss.length + 2 + extra) St.init =
      some ((outcomeOf s).toCreate inst (TrimSuffix jobByte "\n"),
        ⟨ss.length + 2, createEvent w c rb ::
          pollTrace (statusEvent w c (TrimSuffix jobByte "\n")) (ss.length + 1)⟩) := by
  rw [CreateInstance_triggered w c inst _ St.init rb jobByte htrig]
  have h := pollLoop_run_terminal w c (TrimSuffix jobByte "\n") hurl extra ss ⟨"pending"⟩
    ⟨St.init.calls + 1, St.init.trace ++ [createEvent w c rb]⟩ pending_not_terminal
    (by simpa [St.init] using hrun) s hterm (by simpa [St.init] using hlast)
  rw [h]
  simp [St.init]
  omega

theorem DeleteInstance_run_terminal (w : World) (c : Client) (id : String)
    (jobByte : String) (ss : List String) (extra : Nat) (s : String)
    (htrig : DeleteTriggered w c id 0 jobByte)
    (hurl : w.parseURL (jobURL c (TrimSuffix jobByte "\n")) = none)
    (hrun : PendingRun w 1 ⟨"pending"⟩ ss) (hterm : Terminal s)
    (hlast : DecodesTo w (1 + ss.length) (endJob ⟨"pending"⟩ ss) s) :
    DeleteInstance w c id (ss.length + 2 + extra) St.init =
      some ((outcomeOf s).toDelete (TrimSuffix jobByte "\n"),
        ⟨ss.length + 2, deleteEvent w c id ::
          pollTrace (statusEvent w c (TrimSuffix jobByte "\n")) (ss.length + 1)⟩) := by
  rw [DeleteInstance_triggered w c id _ St.init jobByte htrig]
  have h := pollLoop_run_terminal w c (TrimSuffix jobByte "\n") hurl extra ss ⟨"pending"⟩
    ⟨St.init.calls + 1, St.init.trace ++ [deleteEvent w c id]⟩ pending_not_terminal
    (by simpa [St.init] using hrun) s hterm (by simpa [St.init] using hlast)
  rw [h]
  simp [St.init]
  omega

theorem CreateInstance_run_fail (w : World) (c : Client) (inst : Instance)
    (rb jobByte : String) (ss : List String) (extra : Nat) (e : GoError)
    (htrig : CreateTriggered w c inst 0 rb jobByte)
    (hurl : w.parseURL (jobURL c (TrimSuffix jobByte "\n")) = none)
    (hrun : PendingRun w 1 ⟨"pending"⟩ ss)
    (hfail : (∃ req st0, st0.calls = 1 + ss.length ∧ (doRequest w c req st0).1 = .error e) ∨
      (∃ body, w.roundTrip (1 + ss.length) = .ok ⟨200, .ok body⟩ ∧
        w.unmarshalJob body (endJob ⟨"pending"⟩ ss) = .error e)) :
    CreateInstance w c inst (ss.length + 1 + extra) St.init =
      some (.error e, ⟨ss.length + 2, createEvent w c rb ::
        (pollTrace (statusEvent w c (TrimSuffix jobByte "\n")) ss.length ++
          [statusEvent w c (TrimSuffix jobByte "\n")])⟩) := by
  rw [CreateInstance_triggered w c inst _ St.init rb jobByte htrig]
  have h := pollLoop_run_fail w c (TrimSuffix jobByte "\n") hurl extra ss ⟨"pending"⟩
    ⟨St.init.calls + 1, St.init.trace ++ [createEvent w c rb]⟩ pending_not_terminal
    (by simpa [St.init] using hrun) e (by simpa [St.init] using hfail)
  rw [h]
  simp [St.init, PollOutcome.toCreate]
  omega

theorem DeleteInstance_run_fail (w : World) (c : Client) (id : String)
    (jobByte : String) (ss : List String) (extra : Nat) (e : GoError)
    (htrig : DeleteTriggered w c id 0 jobByte)
    (hurl : w.parseURL (jobURL c (TrimSuffix jobByte "\n")) = none)
    (hrun : PendingRun w 1 ⟨"pending"⟩ ss)
    (hfail : (∃ req st0, st0.calls = 1 + ss.length ∧ (doRequest w c req st0).1 = .error e) ∨
      (∃ body, w.roundTrip (1 + ss.length) = .ok ⟨200, .ok body⟩ ∧
        w.unmarshalJob body (endJob ⟨"pending"⟩ ss) = .error e)) :
    DeleteInstance w c id (ss.length + 1 + extra) St.init =
      some (.error e, ⟨ss.length + 2, deleteEvent w c id ::
        (pollTrace (statusEvent w c (TrimSuffix jobByte "\n")) ss.length ++
          [statusEvent w c (TrimSuffix jobByte "\n")])⟩) := by
  rw [DeleteInstance_triggered w c id _ St.init jobByte htrig]
  have h := pollLoop_run_fail w c (TrimSuffix jobByte "\n") hurl extra ss ⟨"pending"⟩
    ⟨St.init.calls + 1, St.init.trace ++ [deleteEvent w c id]⟩ pending_not_terminal
    (by simpa [St.init] using hrun) e (by simpa [St.init] using hfail)
  rw [h]
  simp [St.init, PollOutcome.toDelete]
  omega

theorem statusRequests_create_trace (w : World) (c : Client) (rb jobStr : String) (n : Nat) :
    statusRequests c jobStr (createEvent w c rb :: pollTrace (statusEvent w c jobStr) n) = n := by
  have h := statusRequests_append c jobStr [createEvent w c rb]
    (pollTrace (statusEvent w c jobStr) n)
  rw [statusRequests_createEvent, statusRequests_pollTrace] at h
  simpa using h

theorem statusRequests_delete_trace (w : World) (c : Client) (id jobStr : String) (n : Nat) :
    statusRequests c jobStr (deleteEvent w c id :: pollTrace (statusEvent w c jobStr) n) = n := by
  have h := statusRequests_append c jobStr [deleteEvent w c id]
    (pollTrace (statusEvent w c jobStr) n)
  rw [statusRequests_deleteEvent, statusRequests_pollTrace] at h
  simpa using h

theorem sleeps_create_trace (w : World) (c : Client) (rb jobStr : String) (n : Nat) :
    sleeps (createEvent w c rb :: pollTrace (statusEvent w c jobStr) n) = n := by
  have h := sleeps_append [createEvent w c rb] (pollTrace (statusEvent w c jobStr) n)
  rw [sleeps_pollTrace] at h
  simpa [sleeps, createEvent, Event.isSleep] using h

theorem sleeps_delete_trace (w : World) (c : Client) (id jobStr : String) (n : Nat) :
    sleeps (deleteEvent w c id :: pollTrace (statusEvent w c jobStr) n) = n := by
  have h := sleeps_append [deleteEvent w c id] (pollTrace (statusEvent w c jobStr) n)
  rw [sleeps_pollTrace] at h
  simpa [sleeps, deleteEvent, Event.isSleep] using h

theorem getLast?_cons_pollTrace (a g : Event) (n : Nat) :
    (a :: pollTrace g (n + 1)).getLast? = some (Event.sleep 10) := by
  rw [pollTrace_succ_right]
  have h : a :: (pollTrace g n ++ [g, Event.sleep 10]) =
      (a :: (pollTrace g n ++ [g])) ++ [Event.sleep 10] := by simp
  rw [h, List.getLast?_concat]

/-! ## Claims about CreateInstance -/

/-- C1. When the triggering POST succeeds, the first k status fetches decode to
non-terminal statuses (the list `ss`, k its length) and the next one decodes to
"success", CreateInstance returns (with any fuel of at least k + 2) without
error the very instance it was given, having made k + 2 exchanges of which
exactly k + 1 are job-status requests. -/
theorem CreateInstance_success_after_pending (w : World) (c : Client) (inst : Instance)
    (rb jobByte : String) (ss : List String) (extra : Nat)
    (htrig : CreateTriggered w c inst 0 rb jobByte)
    (hurl : w.parseURL (jobURL c (TrimSuffix jobByte "\n")) = none)
    (hrun : PendingRun w 1 ⟨"pending"⟩ ss)
    (hlast : DecodesTo w (1 + ss.length) (endJob ⟨"pending"⟩ ss) "success") :
    ∃ st1, CreateInstance w c inst (ss.length + 2 + extra) St.init = some (.ok inst, st1) ∧
      st1.calls = ss.length + 2 ∧
      statusRequests c (TrimSuffix jobByte "\n") st1.trace = ss.length + 1 := by
  refine ⟨_, CreateInstance_run_terminal w c inst rb jobByte ss extra "success" htrig hurl hrun
    (Or.inl rfl) hlast, rfl, ?_⟩
  exact statusRequests_create_trace w c rb _ _

/-- Witness of C1: pending, pending, success gives exactly three job-status
requests and the submitted instance. -/
theorem CreateInstance_success_after_pending_witness :
    PendingRun worldPendingPendingSuccess 1 ⟨"pending"⟩ ["pending", "pending"] ∧
    ∃ st1, CreateInstance worldPendingPendingSuccess demoClient demoInstance 4 St.init =
        some (.ok demoInstance, st1) ∧
      st1.calls = 4 ∧ statusRequests demoClient "42" st1.trace = 3 :=
  ⟨⟨by decide, ⟨_, rfl, rfl⟩, by decide, ⟨_, rfl, rfl⟩, trivial⟩,
    CreateInstance_success_after_pending worldPendingPendingSuccess demoClient demoInstance
      (instanceBody demoInstance) "42\n" ["pending", "pending"] 0 ⟨rfl, rfl, rfl⟩ rfl
      ⟨by decide, ⟨_, rfl, rfl⟩, by decide, ⟨_, rfl, rfl⟩, trivial⟩ ⟨_, rfl, rfl⟩⟩

/-- C2. When the first terminal status is "error", preceded only by decoded
non-terminal statuses (the list `ss`, k its length), CreateInstance fails and
returns no instance; the error is exactly "Job ID <id> failed to create
instance" with <id> the job ID, so its text contains the job ID; and the
exchange that returned "error" is the last one made: k + 2 exchanges in all,
k + 1 of them job-status requests, whatever fuel is left. -/
theorem CreateInstance_fails_on_job_error (w : World) (c : Client) (inst : Instance)
    (rb jobByte : String) (ss : List String) (extra : Nat)
    (htrig : CreateTriggered w c inst 0 rb jobByte)
    (hurl : w.parseURL (jobURL c (TrimSuffix jobByte "\n")) = none)
    (hrun : PendingRun w 1 ⟨"pending"⟩ ss)
    (hlast : DecodesTo w (1 + ss.length) (endJob ⟨"pending"⟩ ss) "error") :
    ∃ st1 err, CreateInstance w c inst (ss.length + 2 + extra) St.init = some (.error err, st1) ∧
      err = .errorf ("Job ID " ++ TrimSuffix jobByte "\n" ++ " failed to create instance") ∧
      Contains err.text (TrimSuffix jobByte "\n") ∧
      st1.calls = ss.length + 2 ∧
      statusRequests c (TrimSuffix jobByte "\n") st1.trace = ss.length + 1 := by
  refine ⟨_, _, CreateInstance_run_terminal w c inst rb jobByte ss extra "error" htrig hurl hrun
    (Or.inr rfl) hlast, rfl, ⟨"Job ID ", " failed to create instance", rfl⟩, rfl, ?_⟩
  exact statusRequests_create_trace w c rb _ _

/-- Witness of C2: job 42 answers running, then error. -/
theorem CreateInstance_fails_on_job_error_witness :
    ∃ st1 err, CreateInstance worldRunningError demoClient demoInstance 3 St.init =
        some (.error err, st1) ∧
      err = .errorf "Job ID 42 failed to create instance" ∧ Contains err.text "42" ∧
      st1.calls = 3 ∧ statusRequests demoClient "42" st1.trace = 2 :=
  CreateInstance_fails_on_job_error worldRunningError demoClient demoInstance
    (instanceBody demoInstance) "42\n" ["running"] 0 ⟨rfl, rfl, rfl⟩ rfl
    ⟨by decide, ⟨_, rfl, rfl⟩, trivial⟩ ⟨_, rfl, rfl⟩

/-- C8. When the first k - 1 status fetches decode to non-terminal statuses
(the list `ss`) and the k-th fails with error `e`, either because doRequest
returns `e` or because the body does not decode as a job, CreateInstance and
DeleteInstance both return exactly `e` (CreateInstance no instance), having
made exactly k job-status requests, the failed one being the last exchange. -/
theorem fetch_failure_aborts_poll (w : World) (c : Client) (inst : Instance) (id : String)
    (rb jobByte : String) (ss : List String) (extra : Nat) (e : GoError)
    (htrigC : CreateTriggered w c inst 0 rb jobByte)
    (htrigD : DeleteTriggered w c id 0 jobByte)
    (hurl : w.parseURL (jobURL c (TrimSuffix jobByte "\n")) = none)
    (hrun : PendingRun w 1 ⟨"pending"⟩ ss)
    (hfail : (∃ req st0, st0.calls = 1 + ss.length ∧ (doRequest w c req st0).1 = .error e) ∨
      (∃ body, w.roundTrip (1 + ss.length) = .ok ⟨200, .ok body⟩ ∧
        w.unmarshalJob body (endJob ⟨"pending"⟩ ss) = .error e)) :
    ∃ stC stD,
      CreateInstance w c inst (ss.length + 1 + extra) St.init = some (.error e, stC) ∧
      DeleteInstance w c id (ss.length + 1 + extra) St.init = some (.error e, stD) ∧
      stC.calls = ss.length + 2 ∧ stD.calls = ss.length + 2 ∧
      statusRequests c (TrimSuffix jobByte "\n") stC.trace = ss.length + 1 ∧
      statusRequests c (TrimSuffix jobByte "\n") stD.trace = ss.length + 1 ∧
      stC.trace.getLast? = some (statusEvent w c (TrimSuffix jobByte "\n")) ∧
      stD.trace.getLast? = some (statusEvent w c (TrimSuffix jobByte "\n")) := by
  refine ⟨_, _, CreateInstance_run_fail w c inst rb jobByte ss extra e htrigC hurl hrun hfail,
    DeleteInstance_run_fail w c id jobByte ss extra e htrigD hurl hrun hfail, rfl, rfl,
    ?_, ?_, ?_, ?_⟩
  · have h := statusRequests_append c (TrimSuffix jobByte "\n")
      (createEvent w c rb :: pollTrace (statusEvent w c (TrimSuffix jobByte "\n")) ss.length)
      [statusEvent w c (TrimSuffix jobByte "\n")]
    rw [statusRequests_create_trace] at h
    simp only [List.cons_append] at h
    rw [h]
    simp [statusRequests, isStatusRequest_statusEvent]
  · have h := statusRequests_append c (TrimSuffix jobByte "\n")
      (deleteEvent w c id :: pollTrace (statusEvent w c (TrimSuffix jobByte "\n")) ss.length)
      [statusEvent w c (TrimSuffix jobByte "\n")]
    rw [statusRequests_delete_trace] at h
    simp only [List.cons_append] at h
    rw [h]
    simp [statusRequests, isStatusRequest_statusEvent]
  · exact getLast?_cons_concat _ _ _
  · exact getLast?_cons_concat _ _ _

/-- Witness of C8: job 42 answers pending, then the job resource answers 404;
both calls return the 404 error after exactly two job-status requests. -/
theorem fetch_failure_aborts_poll_witness :
    ∃ stC stD,
      CreateInstance worldPendingNotFound demoClient demoInstance 2 St.init =
        some (.error (.errorf "[404] Not Found - Nothing matches the given URI"), stC) ∧
      DeleteInstance worldPendingNotFound demoClient "vm1.example" 2 St.init =
        some (.error (.errorf "[404] Not Found - Nothing matches the given URI"), stD) ∧
      stC.calls = 3 ∧ stD.calls = 3 ∧
      statusRequests demoClient "42" stC.trace = 2 ∧
      statusRequests demoClient "42" stD.trace = 2 ∧
      stC.trace.getLast? = some (statusEvent worldPendingNotFound demoClient "42") ∧
      stD.trace.getLast? = some (statusEvent worldPendingNotFound demoClient "42") :=
  fetch_failure_aborts_poll worldPendingNotFound demoClient demoInstance "vm1.example"
    (instanceBody demoInstance) "42\n" ["pending"] 0
    (.errorf "[404] Not Found - Nothing matches the given URI")
    ⟨rfl, rfl, rfl⟩ ⟨rfl, rfl⟩ rfl ⟨by decide, ⟨_, rfl, rfl⟩, trivial⟩
    (Or.inl ⟨⟨"GET", "", none, []⟩, ⟨2, []⟩, rfl, rfl⟩)

/-! ## The suspension -/

/-- C10, counterexample. Job 42 answers "success" to the first status fetch: the
run ends on a terminal status after one status fetch, yet it performs one
suspension, not zero, and that suspension is the last event of the run, after
the terminal status was fetched. -/
theorem sleep_follows_terminal_fetch :
    CreateInstance worldSuccess demoClient demoInstance 2 St.init =
      some (.ok demoInstance,
        ⟨2, [createEvent worldSuccess demoClient (instanceBody demoInstance),
          statusEvent worldSuccess demoClient "42", Event.sleep 10]⟩) ∧
    statusRequests demoClient "42"
      [createEvent worldSuccess demoClient (instanceBody demoInstance),
        statusEvent worldSuccess demoClient "42", Event.sleep 10] = 1 ∧
    sleeps [createEvent worldSuccess demoClient (instanceBody demoInstance),
        statusEvent worldSuccess demoClient "42", Event.sleep 10] = 1 ∧
    ¬ (sleeps [createEvent worldSuccess demoClient (instanceBody demoInstance),
        statusEvent worldSuccess demoClient "42", Event.sleep 10] = 1 - 1) :=
  ⟨rfl, by decide, by decide, by decide⟩

/-! ## Create and delete poll alike -/

/-- The loop treats the trace it starts from as an opaque past: it only appends. -/
theorem pollLoop_frame (w : World) (c : Client) (jobStr : String) (fuel : Nat) :
    ∀ (job : Job) (i : Nat) (tr : List Event),
      pollLoop w c jobStr fuel job ⟨i, tr⟩ =
        (pollLoop w c jobStr fuel job ⟨i, []⟩).map
          (fun r => (r.1, ⟨r.2.calls, tr ++ r.2.trace⟩)) := by
  induction fuel with
  | zero => intro job i tr; rfl
  | succ fuel ih =>
    intro job i tr
    by_cases he : job.Status = "error"
    · rw [pollLoop_error w c jobStr _ job _ he, pollLoop_error w c jobStr _ job _ he]; simp
    · by_cases hs : job.Status = "success"
      · rw [pollLoop_success w c jobStr _ job _ hs, pollLoop_success w c jobStr _ job _ hs]; simp
      · have hnt : ¬ Terminal job.Status := fun ht => ht.elim hs he
        cases hurl : w.parseURL (jobURL c jobStr) with
        | some err =>
          rw [pollLoop_badURL w c jobStr _ job _ hnt err hurl,
            pollLoop_badURL w c jobStr _ job _ hnt err hurl]
          simp
        | none =>
          rw [pollLoop_fetch w c jobStr _ job _ hnt hurl, pollLoop_fetch w c jobStr _ job _ hnt hurl]
          rw [doRequest_fst_congr w c _ ⟨"GET", jobURL c jobStr, none, []⟩ ⟨i, tr⟩ ⟨i, []⟩ rfl]
          cases (doRequest w c ⟨"GET", jobURL c jobStr, none, []⟩ ⟨i, []⟩).1 with
          | error err => simp
          | ok res =>
            simp only []
            cases w.unmarshalJob res job with
            | error err => simp
            | ok job1 =>
              simp only []
              rw [ih job1 (i + 1) (tr ++ [statusEvent w c jobStr, Event.sleep 10]),
                ih job1 (i + 1) ([] ++ [statusEvent w c jobStr, Event.sleep 10])]
              simp [Option.map_map, Function.comp_def]

/-- C6. The loop of DeleteInstance and the loop of CreateInstance are the same
loop: for every world, client, job ID, fuel, job record and state, both are
the image of one run of `pollLoop`, hence reach the same final state (the same
exchanges against the same job path, the same suspensions) and the same kind
of outcome (success, job failure naming the job ID, or the propagated fetch
error); they differ in the wording of the job-failure message and in that
delete returns no instance. For the whole calls, once the triggers are
answered with the same body: both are the image of the same run of the loop
from the status "pending", and their traces differ in the triggering exchange
only (POST on the collection, DELETE on the instance path). -/
theorem delete_polls_like_create (w : World) (c : Client) (inst : Instance) (id : String)
    (jobStr : String) (fuel : Nat) (job : Job) (st : St) :
    createLoop w c inst jobStr fuel job st =
        (pollLoop w c jobStr fuel job st).map (fun r => (r.1.toCreate inst jobStr, r.2)) ∧
    deleteLoop w c jobStr fuel job st =
        (pollLoop w c jobStr fuel job st).map (fun r => (r.1.toDelete jobStr, r.2)) ∧
    (∀ rb b : String, CreateTriggered w c inst 0 rb b → DeleteTriggered w c id 0 b →
      CreateInstance w c inst fuel St.init =
          (pollLoop w c (TrimSuffix b "\n") fuel ⟨"pending"⟩ ⟨1, []⟩).map
            (fun r => (r.1.toCreate inst (TrimSuffix b "\n"),
              ⟨r.2.calls, createEvent w c rb :: r.2.trace⟩)) ∧
        DeleteInstance w c id fuel St.init =
          (pollLoop w c (TrimSuffix b "\n") fuel ⟨"pending"⟩ ⟨1, []⟩).map
            (fun r => (r.1.toDelete (TrimSuffix b "\n"),
              ⟨r.2.calls, deleteEvent w c id :: r.2.trace⟩))) := by
  refine ⟨createLoop_eq_pollLoop w c inst jobStr fuel job st,
    deleteLoop_eq_pollLoop w c jobStr fuel job st, ?_⟩
  intro rb b htc htd
  constructor
  · rw [CreateInstance_triggered w c inst fuel St.init rb b htc]
    have := pollLoop_frame w c (TrimSuffix b "\n") fuel ⟨"pending"⟩ 1 [createEvent w c rb]
    simp only [St.init, List.nil_append, Nat.zero_add]
    rw [this]
    simp [Option.map_map, Function.comp_def]
  · rw [DeleteInstance_triggered w c id fuel St.init b htd]
    have := pollLoop_frame w c (TrimSuffix b "\n") fuel ⟨"pending"⟩ 1 [deleteEvent w c id]
    simp only [St.init, List.nil_append, Nat.zero_add]
    rw [this]
    simp [Option.map_map, Function.comp_def]

/-- Witness of C6: job 42 answers running, then error; after the trigger both
calls make the same two fetches and fail with their own wording. -/
theorem delete_polls_like_create_witness :
    CreateInstance worldRunningError demoClient demoInstance 3 St.init =
        some (.error (.errorf "Job ID 42 failed to create instance"),
          ⟨3, createEvent worldRunningError demoClient (instanceBody demoInstance) ::
            pollTrace (statusEvent worldRunningError demoClient "42") 2⟩) ∧
      DeleteInstance worldRunningError demoClient "vm1.example" 3 St.init =
        some (.error (.errorf "Job ID 42 failed to delete instance"),
          ⟨3, deleteEvent worldRunningError demoClient "vm1.example" ::
            pollTrace (statusEvent worldRunningError demoClient "42") 2⟩) :=
  (delete_polls_like_create worldRunningError demoClient demoInstance "vm1.example" "42" 3
    ⟨"pending"⟩ St.init).2.2 (instanceBody demoInstance) "42\n" ⟨rfl, rfl, rfl⟩ ⟨rfl, rfl⟩

/-! ## No run completes without a terminal status -/

theorem statusRequests_step (w : World) (c : Client) (jobStr : String) (tr : List Event) :
    statusRequests c jobStr (tr ++ [statusEvent w c jobStr, Event.sleep 10]) =
      statusRequests c jobStr tr + 1 := by
  have h1 := isStatusRequest_statusEvent w c jobStr
  have h2 : (Event.sleep 10).isStatusRequest c jobStr = false := rfl
  simp [statusRequests, List.countP_cons, h1, h2]

theorem statusRequests_fetch (w : World) (c : Client) (jobStr : String) (tr : List Event) :
    statusRequests c jobStr (tr ++ [statusEvent w c jobStr]) =
      statusRequests c jobStr tr + 1 := by
  have h1 := isStatusRequest_statusEvent w c jobStr
  simp [statusRequests, List.countP_cons, h1]

/-- Every finished run of the loop only adds to the requests made. -/
theorem pollLoop_counts (w : World) (c : Client) (jobStr : String) (fuel : Nat) :
    ∀ (job : Job) (st : St) (o : PollOutcome) (st1 : St),
      pollLoop w c jobStr fuel job st = some (o, st1) →
        statusRequests c jobStr st.trace ≤ statusRequests c jobStr st1.trace ∧
          st.calls ≤ st1.calls := by
  induction fuel with
  | zero => intro job st o st1 h; simp [pollLoop] at h
  | succ fuel ih =>
    intro job st o st1 h
    by_cases he : job.Status = "error"
    · rw [pollLoop_error w c jobStr _ job st he] at h
      simp only [Option.some.injEq, Prod.mk.injEq] at h
      obtain ⟨_, rfl⟩ := h
      exact ⟨Nat.le_refl _, Nat.le_refl _⟩
    · by_cases hs : job.Status = "success"
      · rw [pollLoop_success w c jobStr _ job st hs] at h
        simp only [Option.some.injEq, Prod.mk.injEq] at h
        obtain ⟨_, rfl⟩ := h
        exact ⟨Nat.le_refl _, Nat.le_refl _⟩
      · have hnt : ¬ Terminal job.Status := fun ht => ht.elim hs he
        cases hurl : w.parseURL (jobURL c jobStr) with
        | some err =>
          rw [pollLoop_badURL w c jobStr _ job st hnt err hurl] at h
          simp only [Option.some.injEq, Prod.mk.injEq] at h
          obtain ⟨_, rfl⟩ := h
          exact ⟨Nat.le_refl _, Nat.le_refl _⟩
        | none =>
          rw [pollLoop_fetch w c jobStr _ job st hnt hurl] at h
          split at h
          · simp only [Option.some.injEq, Prod.mk.injEq] at h
            obtain ⟨_, rfl⟩ := h
            simp only [statusRequests_fetch]
            omega
          · split at h
            · simp only [Option.some.injEq, Prod.mk.injEq] at h
              obtain ⟨_, rfl⟩ := h
              simp only [statusRequests_fetch]
              omega
            · have := ih _ _ _ _ h
              simp only [statusRequests_step] at this
              omega

/-- A finished run from a non-terminal status whose request can be built has
made at least one more job-status request. -/
theorem pollLoop_requests_lt (w : World) (c : Client) (jobStr : String)
    (hurl : w.parseURL (jobURL c jobStr) = none) (fuel : Nat) (job : Job) (st : St)
    (hnt : ¬ Terminal job.Status) (o : PollOutcome) (st1 : St)
    (h : pollLoop w c jobStr fuel job st = some (o, st1)) :
    statusRequests c jobStr st.trace + 1 ≤ statusRequests c jobStr st1.trace := by
  cases fuel with
  | zero => simp [pollLoop] at h
  | succ fuel =>
    rw [pollLoop_fetch w c jobStr _ job st hnt hurl] at h
    split at h
    · simp only [Option.some.injEq, Prod.mk.injEq] at h
      obtain ⟨_, rfl⟩ := h
      simp only [statusRequests_fetch]
      omega
    · split at h
      · simp only [Option.some.injEq, Prod.mk.injEq] at h
        obtain ⟨_, rfl⟩ := h
        simp only [statusRequests_fetch]
        omega
      · have := (pollLoop_counts w c jobStr fuel _ _ _ _ h).1
        simp only [statusRequests_step] at this
        omega

/-- A run that ends in success either started on "success" or made at least
one job-status request, the last exchange being one that decoded to
"success". -/
theorem pollLoop_success_inv (w : World) (c : Client) (jobStr : String) (fuel : Nat) :
    ∀ (job : Job) (st st1 : St), pollLoop w c jobStr fuel job st = some (.success, st1) →
      (job.Status = "success" ∧ st1 = st) ∨
        (st.calls < st1.calls ∧ (∃ prev, DecodesTo w (st1.calls - 1) prev "success") ∧
          statusRequests c jobStr st.trace + 1 ≤ statusRequests c jobStr st1.trace) := by
  induction fuel with
  | zero => intro job st st1 h; simp [pollLoop] at h
  | succ fuel ih =>
    intro job st st1 h
    by_cases he : job.Status = "error"
    · rw [pollLoop_error w c jobStr _ job st he] at h
      simp at h
    · by_cases hs : job.Status = "success"
      · rw [pollLoop_success w c jobStr _ job st hs] at h
        simp only [Option.some.injEq, Prod.mk.injEq, true_and] at h
        exact Or.inl ⟨hs, h.symm⟩
      · have hnt : ¬ Terminal job.Status := fun ht => ht.elim hs he
        right
        cases hurl : w.parseURL (jobURL c jobStr) with
        | some err =>
          rw [pollLoop_badURL w c jobStr _ job st hnt err hurl] at h
          simp at h
        | none =>
          rw [pollLoop_fetch w c jobStr _ job st hnt hurl] at h
          split at h
          · simp at h
          · rename_i res hres
            split at h
            · simp at h
            · rename_i job1 hj
              have hb := (doRequest_ok_iff w c _ st res).mp hres
              rcases ih _ _ _ h with ⟨hs1, hst⟩ | ⟨hlt, hdec, hcnt⟩
              · subst hst
                refine ⟨by simp, ⟨job, res, ?_, ?_⟩, ?_⟩
                · simpa using hb
                · rw [hj]; cases job1; simp_all
                · simp only [statusRequests_step]; omega
              · refine ⟨?_, hdec, ?_⟩
                · simp only [] at hlt; omega
                · simp only [statusRequests_step] at hcnt; omega

theorem pollLoop_pending_none (w : World) (c : Client) (jobStr : String)
    (hurl : w.parseURL (jobURL c jobStr) = none) (ss : List String) (prev : Job) (st : St)
    (hnt : ¬ Terminal prev.Status) (hrun : PendingRun w st.calls prev ss)
    (fuel : Nat) (hfuel : fuel ≤ ss.length) : pollLoop w c jobStr fuel prev st = none := by
  have h0 := pollLoop_run w c jobStr hurl 0 ss prev st hnt hrun
  have hz : pollLoop w c jobStr (0 + ss.length) prev st = none := by
    rw [h0]; rfl
  cases hx : pollLoop w c jobStr fuel prev st with
  | none => rfl
  | some x =>
    have := pollLoop_mono_le w c jobStr fuel (ss.length - fuel) prev st x hx
    have hlen : fuel + (ss.length - fuel) = 0 + ss.length := by omega
    rw [hlen, hz] at this
    cases this

theorem pollLoop_pending_bound (w : World) (c : Client) (jobStr : String)
    (hurl : w.parseURL (jobURL c jobStr) = none) (ss : List String) (prev : Job) (st : St)
    (hnt : ¬ Terminal prev.Status) (hrun : PendingRun w st.calls prev ss)
    (fuel : Nat) (o : PollOutcome) (st1 : St)
    (h : pollLoop w c jobStr fuel prev st = some (o, st1)) :
    statusRequests c jobStr st.trace + ss.length + 1 ≤ statusRequests c jobStr st1.trace := by
  have hlt : ss.length < fuel := by
    by_contra hle
    have := pollLoop_pending_none w c jobStr hurl ss prev st hnt hrun fuel (by omega)
    rw [this] at h
    cases h
  obtain ⟨f, rfl⟩ : ∃ f, fuel = f + ss.length := ⟨fuel - ss.length, by omega⟩
  rw [pollLoop_run w c jobStr hurl f ss prev st hnt hrun] at h
  have hend := endJob_not_terminal w ss st.calls prev hnt hrun
  have := pollLoop_requests_lt w c jobStr hurl f _ _ hend o st1 h
  simp only [statusRequests_append, statusRequests_pollTrace] at this
  exact this

theorem CreateInstance_ok_inv (w : World) (c : Client) (inst r : Instance) (fuel : Nat)
    (st st1 : St) (h : CreateInstance w c inst fuel st = some (.ok r, st1)) :
    ∃ rb jobByte, CreateTriggered w c inst st.calls rb jobByte ∧ r = inst ∧
      pollLoop w c (TrimSuffix jobByte "\n") fuel ⟨"pending"⟩
        ⟨st.calls + 1, st.trace ++ [createEvent w c rb]⟩ = some (.success, st1) := by
  cases hm : w.marshal inst with
  | error err => simp [CreateInstance, hm] at h
  | ok rb =>
    cases hp : w.parseURL (c.Connection ++ "/instances") with
    | some err =>
      simp [CreateInstance, hm, NewRequest_error w "POST" _ (some rb) err hp] at h
    | none =>
      cases hr : (doRequest w c ⟨"POST", c.Connection ++ "/instances", some rb, []⟩ st).1 with
      | error err =>
        have hreq := NewRequest_ok w "POST" (c.Connection ++ "/instances") (some rb) hp
        unfold CreateInstance at h
        simp only [hm, hreq] at h
        rcases hpair : doRequest w c ⟨"POST", c.Connection ++ "/instances", some rb, []⟩ st
          with ⟨x, st2⟩
        rw [hpair] at h hr
        simp only [] at hr
        subst hr
        simp at h
      | ok jobByte =>
        have hb := (doRequest_ok_iff w c _ st jobByte).mp hr
        have htrig : CreateTriggered w c inst st.calls rb jobByte := ⟨hm, hp, hb⟩
        rw [CreateInstance_triggered w c inst fuel st rb jobByte htrig] at h
        refine ⟨rb, jobByte, htrig, ?_⟩
        cases hpl : pollLoop w c (TrimSuffix jobByte "\n") fuel ⟨"pending"⟩
            ⟨st.calls + 1, st.trace ++ [createEvent w c rb]⟩ with
        | none => rw [hpl] at h; simp at h
        | some x =>
          rw [hpl] at h
          obtain ⟨o, st2⟩ := x
          simp only [Option.map_some', Option.some.injEq, Prod.mk.injEq] at h
          obtain ⟨ho, rfl⟩ := h
          cases o with
          | success => simp only [PollOutcome.toCreate, Except.ok.injEq] at ho; exact ⟨ho.symm, rfl⟩
          | jobFailed => simp [PollOutcome.toCreate] at ho
          | fetchFailed err => simp [PollOutcome.toCreate] at ho

theorem DeleteInstance_ok_inv (w : World) (c : Client) (id : String) (fuel : Nat)
    (st st1 : St) (h : DeleteInstance w c id fuel st = some (.ok (), st1)) :
    ∃ jobByte, DeleteTriggered w c id st.calls jobByte ∧
      pollLoop w c (TrimSuffix jobByte "\n") fuel ⟨"pending"⟩
        ⟨st.calls + 1, st.trace ++ [deleteEvent w c id]⟩ = some (.success, st1) := by
  cases hp : w.parseURL (c.Connection ++ "/instances/" ++ id) with
  | some err =>
    simp [DeleteInstance, NewRequest_error w "DELETE" _ none err hp] at h
  | none =>
    cases hr : (doRequest w c ⟨"DELETE", c.Connection ++ "/instances/" ++ id, none, []⟩ st).1 with
    | error err =>
      have hreq := NewRequest_ok w "DELETE" (c.Connection ++ "/instances/" ++ id) none hp
      unfold DeleteInstance at h
      simp only [hreq] at h
      rcases hpair : doRequest w c ⟨"DELETE", c.Connection ++ "/instances/" ++ id, none, []⟩ st
        with ⟨x, st2⟩
      rw [hpair] at h hr
      simp only [] at hr
      subst hr
      simp at h
    | ok jobByte =>
      have hb := (doRequest_ok_iff w c _ st jobByte).mp hr
      have htrig : DeleteTriggered w c id st.calls jobByte := ⟨hp, hb⟩
      rw [DeleteInstance_triggered w c id fuel st jobByte htrig] at h
      refine ⟨jobByte, htrig, ?_⟩
      cases hpl : pollLoop w c (TrimSuffix jobByte "\n") fuel ⟨"pending"⟩
          ⟨st.calls + 1, st.trace ++ [deleteEvent w c id]⟩ with
      | none => rw [hpl] at h; simp at h
      | some x =>
        rw [hpl] at h
        obtain ⟨o, st2⟩ := x
        simp only [Option.map_some', Option.some.injEq, Prod.mk.injEq] at h
        obtain ⟨ho, rfl⟩ := h
        cases o with
        | success => rfl
        | jobFailed => simp [PollOutcome.toDelete] at ho
        | fetchFailed err => simp [PollOutcome.toDelete] at ho

/-! ## The job ID -/

theorem TrimSuffix_newline_append (t : String) : TrimSuffix (t ++ "\n") "\n" = t := by
  have hd : (t ++ "\n").data = t.data ++ ['\n'] := by simp [String.data_append]
  have hs : HasSuffix (t ++ "\n") "\n" = true := by
    unfold HasSuffix
    rw [hd]
    simp [List.isSuffixOf_iff_suffix]
  unfold TrimSuffix
  rw [if_pos hs, hd]
  simp

theorem TrimSuffix_newline_none (b : String) (h : ∀ t : String, b ≠ t ++ "\n") :
    TrimSuffix b "\n" = b := by
  have hs : HasSuffix b "\n" = false := by
    cases hx : HasSuffix b "\n" with
    | false => rfl
    | true =>
      exfalso
      unfold HasSuffix at hx
      rw [List.isSuffixOf_iff_suffix] at hx
      obtain ⟨l, hl⟩ := hx
      apply h ⟨l⟩
      apply String.ext
      rw [String.data_append, ← hl]
  unfold TrimSuffix
  simp [hs]

theorem CreateInstance_badURL (w : World) (c : Client) (inst : Instance) (rb b : String)
    (err : GoError) (fuel : Nat) (htrig : CreateTriggered w c inst 0 rb b)
    (hurl : w.parseURL (c.Connection ++ "/jobs/" ++ TrimSuffix b "\n") = some err) :
    CreateInstance w c inst (fuel + 1) St.init =
      some (.error err, ⟨1, [createEvent w c rb]⟩) := by
  rw [CreateInstance_triggered w c inst _ St.init rb b htrig,
    pollLoop_badURL w c _ fuel _ _ pending_not_terminal err hurl]
  rfl

theorem DeleteInstance_badURL (w : World) (c : Client) (id b : String)
    (err : GoError) (fuel : Nat) (htrig : DeleteTriggered w c id 0 b)
    (hurl : w.parseURL (c.Connection ++ "/jobs/" ++ TrimSuffix b "\n") = some err) :
    DeleteInstance w c id (fuel + 1) St.init =
      some (.error err, ⟨1, [deleteEvent w c id]⟩) := by
  rw [DeleteInstance_triggered w c id _ St.init b htrig,
    pollLoop_badURL w c _ fuel _ _ pending_not_terminal err hurl]
  rfl

/-- C9. The job ID that CreateInstance and DeleteInstance use is the body `b` of
the 200 answer to the trigger with exactly one trailing newline removed when
`b` ends in a newline, and `b` itself otherwise ("42\n" gives "42", "42" gives
"42", "42\n\n" gives "42\n"). Both calls use that same ID in the job-failure
message and in the URL "<base URL>/jobs/<id>" of every job-status request:
the URL they hand to http.NewRequest (if it is refused, its error is returned
and no status request is made) and the URL of the GET requests made. -/
theorem job_id_extraction (w : World) (c : Client) (inst : Instance) (id : String) :
    (∀ t : String, TrimSuffix (t ++ "\n") "\n" = t) ∧
    (∀ b : String, (∀ t : String, b ≠ t ++ "\n") → TrimSuffix b "\n" = b) ∧
    (TrimSuffix "42\n" "\n" = "42" ∧ TrimSuffix "42" "\n" = "42" ∧
      TrimSuffix "42\n\n" "\n" = "42\n") ∧
    (∀ (rb b : String) (ss : List String) (extra : Nat),
      CreateTriggered w c inst 0 rb b → DeleteTriggered w c id 0 b →
      w.parseURL (c.Connection ++ "/jobs/" ++ TrimSuffix b "\n") = none →
      PendingRun w 1 ⟨"pending"⟩ ss →
      DecodesTo w (1 + ss.length) (endJob ⟨"pending"⟩ ss) "error" →
        CreateInstance w c inst (ss.length + 2 + extra) St.init =
          some (.error (.errorf ("Job ID " ++ TrimSuffix b "\n" ++ " failed to create instance")),
            ⟨ss.length + 2, createEvent w c rb ::
              pollTrace (Event.roundTrip (!c.SSLVerify) 30 (sentRequest w c
                ⟨"GET", c.Connection ++ "/jobs/" ++ TrimSuffix b "\n", none, []⟩))
                (ss.length + 1)⟩) ∧
        DeleteInstance w c id (ss.length + 2 + extra) St.init =
          some (.error (.errorf ("Job ID " ++ TrimSuffix b "\n" ++ " failed to delete instance")),
            ⟨ss.length + 2, deleteEvent w c id ::
              pollTrace (Event.roundTrip (!c.SSLVerify) 30 (sentRequest w c
                ⟨"GET", c.Connection ++ "/jobs/" ++ TrimSuffix b "\n", none, []⟩))
                (ss.length + 1)⟩)) ∧
    (∀ (rb b : String) (err : GoError) (fuel : Nat),
      CreateTriggered w c inst 0 rb b → DeleteTriggered w c id 0 b →
      w.parseURL (c.Connection ++ "/jobs/" ++ TrimSuffix b "\n") = some err →
        CreateInstance w c inst (fuel + 1) St.init =
          some (.error err, ⟨1, [createEvent w c rb]⟩) ∧
        DeleteInstance w c id (fuel + 1) St.init =
          some (.error err, ⟨1, [deleteEvent w c id]⟩)) := by
  refine ⟨TrimSuffix_newline_append, TrimSuffix_newline_none, ⟨by decide, by decide, by decide⟩,
    ?_, ?_⟩
  · intro rb b ss extra htc htd hurl hrun hlast
    exact ⟨CreateInstance_run_terminal w c inst rb b ss extra "error" htc hurl hrun
        (Or.inr rfl) hlast,
      DeleteInstance_run_terminal w c id b ss extra "error" htd hurl hrun (Or.inr rfl) hlast⟩
  · intro rb b err fuel htc htd hurl
    exact ⟨CreateInstance_badURL w c inst rb b err fuel htc hurl,
      DeleteInstance_badURL w c id b err fuel htd hurl⟩

/-- Witness of C9: with body "42\n" the failure messages and the job-status
URL carry "42"; with body "42\n\n" the ID is "42\n", whose URL is refused. -/
theorem job_id_extraction_witness :
    (CreateInstance worldRunningError demoClient demoInstance 3 St.init =
        some (.error (.errorf "Job ID 42 failed to create instance"),
          ⟨3, createEvent worldRunningError demoClient (instanceBody demoInstance) ::
            pollTrace (Event.roundTrip false 30 (sentRequest worldRunningError demoClient
              ⟨"GET", "https://ganeti.example:5080/2/jobs/42", none, []⟩)) 2⟩) ∧
      DeleteInstance worldRunningError demoClient "vm1.example" 3 St.init =
        some (.error (.errorf "Job ID 42 failed to delete instance"),
          ⟨3, deleteEvent worldRunningError demoClient "vm1.example" ::
            pollTrace (Event.roundTrip false 30 (sentRequest worldRunningError demoClient
              ⟨"GET", "https://ganeti.example:5080/2/jobs/42", none, []⟩)) 2⟩)) ∧
    (CreateInstance worldDoubleNewline demoClient demoInstance 1 St.init =
        some (.error (.lib "net/url: invalid control character in URL"),
          ⟨1, [createEvent worldDoubleNewline demoClient (instanceBody demoInstance)]⟩) ∧
      DeleteInstance worldDoubleNewline demoClient "vm1.example" 1 St.init =
        some (.error (.lib "net/url: invalid control character in URL"),
          ⟨1, [deleteEvent worldDoubleNewline demoClient "vm1.example"]⟩)) :=
  ⟨(job_id_extraction worldRunningError demoClient demoInstance "vm1.example").2.2.2.1
      (instanceBody demoInstance) "42\n" ["running"] 0 ⟨rfl, rfl, rfl⟩ ⟨rfl, rfl⟩ rfl
      ⟨by decide, ⟨_, rfl, rfl⟩, trivial⟩ ⟨_, rfl, rfl⟩,
    (job_id_extraction worldDoubleNewline demoClient demoInstance "vm1.example").2.2.2.2
      (instanceBody demoInstance) "42\n\n" (.lib "net/url: invalid control character in URL") 0
      ⟨rfl, rfl, rfl⟩ ⟨rfl, rfl⟩ rfl⟩

/-! ## The transport: status handling -/

/-- C5. On a status other than 200 whose body decodes to an error payload `p`,
doRequest returns no body and fails with the error whose text is
"[code] message - explain", which therefore contains the decimal code, the
message and the explanation; on status 200 it returns the body it read,
unchanged, with no error. -/
theorem doRequest_status_handling (w : World) (c : Client) (req : Request) (st : St) :
    (∀ (code : Int) (body : String) (p : Error),
      w.roundTrip st.calls = .ok ⟨code, .ok body⟩ → code ≠ 200 →
      w.unmarshalError body = .ok p →
        (doRequest w c req st).1 =
            .error (.errorf ("[" ++ fmtD p.Code ++ "] " ++ p.Message ++ " - " ++ p.Explain)) ∧
          Contains (GoError.errorf
            ("[" ++ fmtD p.Code ++ "] " ++ p.Message ++ " - " ++ p.Explain)).text (fmtD p.Code) ∧
          Contains (GoError.errorf
            ("[" ++ fmtD p.Code ++ "] " ++ p.Message ++ " - " ++ p.Explain)).text p.Message ∧
          Contains (GoError.errorf
            ("[" ++ fmtD p.Code ++ "] " ++ p.Message ++ " - " ++ p.Explain)).text p.Explain) ∧
    (∀ body : String, w.roundTrip st.calls = .ok ⟨200, .ok body⟩ →
      (doRequest w c req st).1 = .ok body) := by
  constructor
  · intro code body p hr hcode hp
    refine ⟨?_, ⟨"[", "] " ++ p.Message ++ " - " ++ p.Explain, ?_⟩,
      ⟨"[" ++ fmtD p.Code ++ "] ", " - " ++ p.Explain, ?_⟩,
      ⟨"[" ++ fmtD p.Code ++ "] " ++ p.Message ++ " - ", "", ?_⟩⟩
    · unfold doRequest
      simp [hr, hcode, hp]
    · simp [GoError.text, String.append_assoc]
    · simp [GoError.text, String.append_assoc]
    · simp [GoError.text, String.append_assoc]
  · intro body hr
    exact (doRequest_ok_iff w c req st body).mpr hr

/-- Witness of C5: a 404 with the example payload, and a 200 with body "42\n". -/
theorem doRequest_status_handling_witness :
    (doRequest worldPendingNotFound demoClient ⟨"GET", "", none, []⟩ ⟨2, []⟩).1 =
        .error (.errorf "[404] Not Found - Nothing matches the given URI") ∧
      (doRequest worldPendingNotFound demoClient ⟨"GET", "", none, []⟩ St.init).1 =
        .ok "42\n" :=
  ⟨((doRequest_status_handling worldPendingNotFound demoClient ⟨"GET", "", none, []⟩
      ⟨2, []⟩).1 404 notFoundBody ⟨"Not Found", 404, "Nothing matches the given URI"⟩
      rfl (by decide) rfl).1,
    (doRequest_status_handling worldPendingNotFound demoClient ⟨"GET", "", none, []⟩
      St.init).2 "42\n" rfl⟩

/-! ## transformSize -/

theorem tdiv_1024_of_nonneg (n : Int) (hn : 0 ≤ n) : n.tdiv 1024 = n / 1024 :=
  Int.tdiv_eq_ediv hn (by decide)

theorem tdiv_1024_of_nonpos (n : Int) (hn : n ≤ 0) : n.tdiv 1024 = -((-n) / 1024) := by
  have h := tdiv_1024_of_nonneg (-n) (by omega)
  rw [← h, Int.neg_tdiv]
  simp

theorem tdiv_chain_of_nonneg (n : Int) (hn : 0 ≤ n) :
    n.tdiv 1024 = n / 1024 ∧ (n.tdiv 1024).tdiv 1024 = n / (1024 ^ 2) ∧
      ((n.tdiv 1024).tdiv 1024).tdiv 1024 = n / (1024 ^ 3) ∧
      n.tdiv (1024 ^ 2) = n / (1024 ^ 2) ∧ n.tdiv (1024 ^ 3) = n / (1024 ^ 3) := by
  have h1 := tdiv_1024_of_nonneg n hn
  have h2 := tdiv_1024_of_nonneg (n / 1024) (by omega)
  have h3 := tdiv_1024_of_nonneg (n / 1024 / 1024) (by omega)
  have h4 : n.tdiv (1024 ^ 2) = n / (1024 ^ 2) := Int.tdiv_eq_ediv hn (by decide)
  have h5 : n.tdiv (1024 ^ 3) = n / (1024 ^ 3) := Int.tdiv_eq_ediv hn (by decide)
  refine ⟨h1, ?_, ?_, h4, h5⟩
  · rw [h1, h2]; omega
  · rw [h1, h2, h3]; omega

/-- C3. For n at least 1024^3, transformSize prints the truncated quotient
n / 1024^3 followed by "P"; for 1024^2 ≤ n < 1024^3 the quotient n / 1024^2
followed by "T"; for 1024 ≤ n < 1024^2 the quotient n / 1024 followed by "G".
The repeated divisions of the code agree with division by the power. -/
theorem transformSize_thresholds (n : Int) :
    (1024 ^ 3 ≤ n → transformSize n = fmtD (n.tdiv (1024 ^ 3)) ++ "P") ∧
    (1024 ^ 2 ≤ n → n < 1024 ^ 3 → transformSize n = fmtD (n.tdiv (1024 ^ 2)) ++ "T") ∧
    (1024 ≤ n → n < 1024 ^ 2 → transformSize n = fmtD (n.tdiv 1024) ++ "G") := by
  refine ⟨?_, ?_, ?_⟩
  · intro h
    obtain ⟨h1, h2, h3, h4, h5⟩ := tdiv_chain_of_nonneg n (by omega)
    have hpos : n / 1024 ^ 3 > 0 := by omega
    unfold transformSize
    simp only [h3, h5, hpos, if_true]
  · intro hlo hhi
    obtain ⟨h1, h2, h3, h4, h5⟩ := tdiv_chain_of_nonneg n (by omega)
    have hz : ¬ (n / 1024 ^ 3 > 0) := by omega
    have hpos : n / 1024 ^ 2 > 0 := by omega
    unfold transformSize
    rw [h3, h2, h4]
    simp only [hz, hpos, if_true, if_false]
  · intro hlo hhi
    obtain ⟨h1, h2, h3, h4, h5⟩ := tdiv_chain_of_nonneg n (by omega)
    have hz3 : ¬ (n / 1024 ^ 3 > 0) := by omega
    have hz2 : ¬ (n / 1024 ^ 2 > 0) := by omega
    have hpos : n / 1024 > 0 := by omega
    unfold transformSize
    rw [h3, h2, h1]
    simp only [hz3, hz2, hpos, if_true, if_false]

/-- Witness of C3: one value in each of the three ranges. -/
theorem transformSize_thresholds_witness :
    transformSize (5 * 1024 ^ 3 + 7) = "5P" ∧ transformSize (1024 ^ 3 - 1) = "1023T" ∧
      transformSize 2048 = "2G" :=
  ⟨(transformSize_thresholds (5 * 1024 ^ 3 + 7)).1 (by decide),
    (transformSize_thresholds (1024 ^ 3 - 1)).2.1 (by decide) (by decide),
    (transformSize_thresholds 2048).2.2 (by decide) (by decide)⟩

/-- C4, counterexample. The integer -1024 is below 1024, yet transformSize
prints "-1M" for it, not "0M": the fallback branch prints the quotient
n / 1024, which is not zero there. -/
theorem transformSize_negative_not_zero :
    (-1024 : Int) < 1024 ∧ transformSize (-1024) = "-1M" ∧ transformSize (-1024) ≠ "0M" :=
  ⟨by decide, by decide, by decide⟩

/-- C4, amended. For every n below 1024 transformSize takes the fallback branch
and prints the truncated quotient n / 1024 followed by "M"; that is exactly
"0M" for every n with -1024 < n < 1024, and a negative quotient for
n ≤ -1024. -/
theorem transformSize_below_threshold (n : Int) (h : n < 1024) :
    transformSize n = fmtD (n.tdiv 1024) ++ "M" ∧
      (-1024 < n → transformSize n = "0M") ∧ (n ≤ -1024 → n.tdiv 1024 < 0) := by
  have hfall : transformSize n = fmtD (n.tdiv 1024) ++ "M" := by
    rcases Int.le_total 0 n with hn | hn
    · obtain ⟨h1, h2, h3, h4, h5⟩ := tdiv_chain_of_nonneg n hn
      have hz3 : ¬ (n / 1024 ^ 3 > 0) := by omega
      have hz2 : ¬ (n / 1024 ^ 2 > 0) := by omega
      have hz1 : ¬ (n / 1024 > 0) := by omega
      unfold transformSize
      rw [h3, h2, h1]
      simp only [hz3, hz2, hz1, if_false]
    · have e1 := tdiv_1024_of_nonpos n hn
      have e2 := tdiv_1024_of_nonpos (n.tdiv 1024) (by rw [e1]; omega)
      have e3 := tdiv_1024_of_nonpos ((n.tdiv 1024).tdiv 1024) (by rw [e2]; omega)
      have hz3 : ¬ (((n.tdiv 1024).tdiv 1024).tdiv 1024 > 0) := by rw [e3]; omega
      have hz2 : ¬ ((n.tdiv 1024).tdiv 1024 > 0) := by rw [e2]; omega
      have hz1 : ¬ (n.tdiv 1024 > 0) := by rw [e1]; omega
      unfold transformSize
      simp only [hz3, hz2, hz1, if_false]
  refine ⟨hfall, ?_, ?_⟩
  · intro hlo
    have hq : n.tdiv 1024 = 0 := by
      rcases Int.le_total 0 n with hn | hn
      · rw [tdiv_1024_of_nonneg n hn]; omega
      · rw [tdiv_1024_of_nonpos n hn]; omega
    rw [hfall, hq]
    decide
  · intro hlo
    rw [tdiv_1024_of_nonpos n (by omega)]
    omega

/-- Witness of C4 amended: 512 gives "0M". -/
theorem transformSize_below_threshold_witness :
    transformSize 512 = "0M" :=
  (transformSize_below_threshold 512 (by decide)).2.1 (by decide)

/-! ## Every run that returns -/

theorem pollLoop_terminal (w : World) (c : Client) (jobStr : String) (fuel : Nat) (job : Job)
    (st : St) (h : Terminal job.Status) :
    pollLoop w c jobStr (fuel + 1) job st = some (outcomeOf job.Status, st) := by
  by_cases he : job.Status = "error"
  · rw [pollLoop_error w c jobStr fuel job st he]; simp [outcomeOf, he]
  · have hs : job.Status = "success" := h.elim id (fun h => absurd h he)
    rw [pollLoop_success w c jobStr fuel job st hs]; simp [outcomeOf, he]

/-- Every run of the loop that returns from a non-terminal status is one of:
the request could not be built; some decoded non-terminal statuses and then a
decoded terminal one; some decoded non-terminal statuses and then a fetch that
failed. -/
theorem pollLoop_inv (w : World) (c : Client) (jobStr : String) (fuel : Nat) :
    ∀ (job : Job) (st : St) (o : PollOutcome) (st1 : St), ¬ Terminal job.Status →
      pollLoop w c jobStr fuel job st = some (o, st1) →
      (∃ e, w.parseURL (jobURL c jobStr) = some e ∧ o = .fetchFailed e ∧ st1 = st) ∨
      (w.parseURL (jobURL c jobStr) = none ∧ ∃ ss, PendingRun w st.calls job ss ∧
        ((∃ s, Terminal s ∧ DecodesTo w (st.calls + ss.length) (endJob job ss) s ∧
            o = outcomeOf s ∧
            st1 = ⟨st.calls + (ss.length + 1),
              st.trace ++ pollTrace (statusEvent w c jobStr) (ss.length + 1)⟩) ∨
          (∃ e, FetchFails w c (st.calls + ss.length) (endJob job ss) e ∧
            o = .fetchFailed e ∧
            st1 = ⟨st.calls + (ss.length + 1),
              st.trace ++ pollTrace (statusEvent w c jobStr) ss.length ++
                [statusEvent w c jobStr]⟩))) := by
  induction fuel with
  | zero => intro job st o st1 _ h; simp [pollLoop] at h
  | succ fuel ih =>
    intro job st o st1 hnt h
    cases hurl : w.parseURL (jobURL c jobStr) with
    | some err =>
      rw [pollLoop_badURL w c jobStr _ job st hnt err hurl] at h
      simp only [Option.some.injEq, Prod.mk.injEq] at h
      exact Or.inl ⟨err, rfl, h.1.symm, h.2.symm⟩
    | none =>
      right
      refine ⟨rfl, ?_⟩
      rw [pollLoop_fetch w c jobStr _ job st hnt hurl] at h
      split at h
      · rename_i err herr
        simp only [Option.some.injEq, Prod.mk.injEq] at h
        refine ⟨[], trivial, Or.inr ⟨err, Or.inl ⟨_, st, rfl, herr⟩, h.1.symm, ?_⟩⟩
        rw [← h.2]; simp [pollTrace]
      · rename_i res hres
        have hb := (doRequest_ok_iff w c _ st res).mp hres
        split at h
        · rename_i err herr
          simp only [Option.some.injEq, Prod.mk.injEq] at h
          refine ⟨[], trivial, Or.inr ⟨err, Or.inr ⟨res, hb, herr⟩, h.1.symm, ?_⟩⟩
          rw [← h.2]; simp [pollTrace]
        · rename_i job1 hj
          obtain ⟨s⟩ := job1
          by_cases hterm : Terminal s
          · cases fuel with
            | zero => simp [pollLoop] at h
            | succ fuel =>
              rw [pollLoop_terminal w c jobStr fuel ⟨s⟩ _ hterm] at h
              simp only [Option.some.injEq, Prod.mk.injEq] at h
              refine ⟨[], trivial, Or.inl ⟨s, hterm, ⟨res, hb, hj⟩, h.1.symm, ?_⟩⟩
              rw [← h.2]; simp [pollTrace]
          · rcases ih ⟨s⟩ _ o st1 hterm h with ⟨e, he, _, _⟩ | ⟨_, ss, hrun, hcase⟩
            · rw [hurl] at he; cases he
            · refine ⟨s :: ss, ⟨hterm, ⟨res, hb, hj⟩, hrun⟩, ?_⟩
              simp only [List.length_cons, endJob]
              rcases hcase with ⟨t, ht, hd, ho, hst⟩ | ⟨e, hf, ho, hst⟩
              · refine Or.inl ⟨t, ht, ?_, ho, ?_⟩
                · have : st.calls + (ss.length + 1) = st.calls + 1 + ss.length := by omega
                  rw [this]; exact hd
                · rw [hst]
                  simp only [pollTrace, St.mk.injEq]
                  constructor
                  · omega
                  · simp
              · refine Or.inr ⟨e, ?_, ho, ?_⟩
                · have : st.calls + (ss.length + 1) = st.calls + 1 + ss.length := by omega
                  rw [this]; exact hf
                · rw [hst]
                  simp only [pollTrace, St.mk.injEq]
                  constructor
                  · omega
                  · simp

/-- A run of CreateInstance that returns either never reached the loop (it
returns an error after at most the triggering exchange) or was triggered and
returns what the loop returns. -/
theorem CreateInstance_inv (w : World) (c : Client) (inst : Instance) (fuel : Nat)
    (r : Except GoError Instance) (st1 : St)
    (h : CreateInstance w c inst fuel St.init = some (r, st1)) :
    ((∃ e, r = .error e) ∧ (st1 = St.init ∨ ∃ rb, st1 = ⟨1, [createEvent w c rb]⟩)) ∨
    (∃ rb b o, CreateTriggered w c inst 0 rb b ∧
      pollLoop w c (TrimSuffix b "\n") fuel ⟨"pending"⟩ ⟨1, [createEvent w c rb]⟩ = some (o, st1) ∧
      r = o.toCreate inst (TrimSuffix b "\n")) := by
  cases hm : w.marshal inst with
  | error err =>
    simp only [CreateInstance, hm, Option.some.injEq, Prod.mk.injEq] at h
    exact Or.inl ⟨⟨err, h.1.symm⟩, Or.inl h.2.symm⟩
  | ok rb =>
    cases hp : w.parseURL (c.Connection ++ "/instances") with
    | some err =>
      simp only [CreateInstance, hm, NewRequest_error w "POST" _ (some rb) err hp,
        Option.some.injEq, Prod.mk.injEq] at h
      exact Or.inl ⟨⟨err, h.1.symm⟩, Or.inl h.2.symm⟩
    | none =>
      have hsnd := doRequest_snd w c ⟨"POST", c.Connection ++ "/instances", some rb, []⟩ St.init
      cases hr : (doRequest w c ⟨"POST", c.Connection ++ "/instances", some rb, []⟩
          St.init).1 with
      | error err =>
        have hreq := NewRequest_ok w "POST" (c.Connection ++ "/instances") (some rb) hp
        unfold CreateInstance at h
        simp only [hm, hreq] at h
        rcases hpair : doRequest w c ⟨"POST", c.Connection ++ "/instances", some rb, []⟩ St.init
          with ⟨x, st2⟩
        rw [hpair] at h hr hsnd
        simp only [] at hr hsnd
        subst hr hsnd
        simp only [Option.some.injEq, Prod.mk.injEq] at h
        refine Or.inl ⟨⟨err, h.1.symm⟩, Or.inr ⟨rb, ?_⟩⟩
        rw [← h.2]; rfl
      | ok b =>
        have hb := (doRequest_ok_iff w c _ St.init b).mp hr
        have htrig : CreateTriggered w c inst 0 rb b := ⟨hm, hp, hb⟩
        rw [CreateInstance_triggered w c inst fuel St.init rb b htrig] at h
        cases hpl : pollLoop w c (TrimSuffix b "\n") fuel ⟨"pending"⟩
            ⟨St.init.calls + 1, St.init.trace ++ [createEvent w c rb]⟩ with
        | none => rw [hpl] at h; simp at h
        | some x =>
          rw [hpl] at h
          obtain ⟨o, st2⟩ := x
          simp only [Option.map_some', Option.some.injEq, Prod.mk.injEq] at h
          obtain ⟨ho, rfl⟩ := h
          exact Or.inr ⟨rb, b, o, htrig, hpl, ho.symm⟩

/-- The same for DeleteInstance. -/
theorem DeleteInstance_inv (w : World) (c : Client) (id : String) (fuel : Nat)
    (r : Except GoError Unit) (st1 : St)
    (h : DeleteInstance w c id fuel St.init = some (r, st1)) :
    ((∃ e, r = .error e) ∧ (st1 = St.init ∨ st1 = ⟨1, [deleteEvent w c id]⟩)) ∨
    (∃ b o, DeleteTriggered w c id 0 b ∧
      pollLoop w c (TrimSuffix b "\n") fuel ⟨"pending"⟩ ⟨1, [deleteEvent w c id]⟩ = some (o, st1) ∧
      r = o.toDelete (TrimSuffix b "\n")) := by
  cases hp : w.parseURL (c.Connection ++ "/instances/" ++ id) with
  | some err =>
    simp only [DeleteInstance, NewRequest_error w "DELETE" _ none err hp,
      Option.some.injEq, Prod.mk.injEq] at h
    exact Or.inl ⟨⟨err, h.1.symm⟩, Or.inl h.2.symm⟩
  | none =>
    have hsnd := doRequest_snd w c ⟨"DELETE", c.Connection ++ "/instances/" ++ id, none, []⟩
      St.init
    cases hr : (doRequest w c ⟨"DELETE", c.Connection ++ "/instances/" ++ id, none, []⟩
        St.init).1 with
    | error err =>
      have hreq := NewRequest_ok w "DELETE" (c.Connection ++ "/instances/" ++ id) none hp
      unfold DeleteInstance at h
      simp only [hreq] at h
      rcases hpair : doRequest w c ⟨"DELETE", c.Connection ++ "/instances/" ++ id, none, []⟩
        St.init with ⟨x, st2⟩
      rw [hpair] at h hr hsnd
      simp only [] at hr hsnd
      subst hr hsnd
      simp only [Option.some.injEq, Prod.mk.injEq] at h
      refine Or.inl ⟨⟨err, h.1.symm⟩, Or.inr ?_⟩
      rw [← h.2]; rfl
    | ok b =>
      have hb := (doRequest_ok_iff w c _ St.init b).mp hr
      have htrig : DeleteTriggered w c id 0 b := ⟨hp, hb⟩
      rw [DeleteInstance_triggered w c id fuel St.init b htrig] at h
      cases hpl : pollLoop w c (TrimSuffix b "\n") fuel ⟨"pending"⟩
          ⟨St.init.calls + 1, St.init.trace ++ [deleteEvent w c id]⟩ with
      | none => rw [hpl] at h; simp at h
      | some x =>
        rw [hpl] at h
        obtain ⟨o, st2⟩ := x
        simp only [Option.map_some', Option.some.injEq, Prod.mk.injEq] at h
        obtain ⟨ho, rfl⟩ := h
        exact Or.inr ⟨b, o, htrig, hpl, ho.symm⟩

/-! ## The continuation after non-terminal statuses -/

theorem pollLoop_continue (w : World) (c : Client) (jobStr : String)
    (hurl : w.parseURL (jobURL c jobStr) = none) (fuel : Nat) (ss : List String)
    (prev : Job) (st : St) (hnt : ¬ Terminal prev.Status)
    (hrun : PendingRun w st.calls prev ss) :
    pollLoop w c jobStr (ss.length + 1 + fuel) prev st =
      nextFetch w c jobStr fuel (endJob prev ss)
        ⟨st.calls + ss.length, st.trace ++ pollTrace (statusEvent w c jobStr) ss.length⟩ := by
  have hfuel : ss.length + 1 + fuel = (fuel + 1) + ss.length := by omega
  have hend := endJob_not_terminal w ss st.calls prev hnt hrun
  rw [hfuel, pollLoop_run w c jobStr hurl (fuel + 1) ss prev st hnt hrun,
    pollLoop_fetch w c jobStr fuel _ _ hend hurl]
  rfl

theorem PendingRun_append (w : World) (s : String) (hs : ¬ Terminal s) (ss : List String) :
    ∀ (i : Nat) (prev : Job), PendingRun w i prev ss →
      DecodesTo w (i + ss.length) (endJob prev ss) s → PendingRun w i prev (ss ++ [s]) := by
  induction ss with
  | nil =>
    intro i prev _ hd
    exact ⟨hs, by simpa [endJob] using hd, trivial⟩
  | cons t rest ih =>
    intro i prev hrun hd
    refine ⟨hrun.1, hrun.2.1, ih (i + 1) ⟨t⟩ hrun.2.2 ?_⟩
    have : i + 1 + rest.length = i + (t :: rest).length := by simp; omega
    rw [this]
    exact hd

theorem CreateInstance_continue (w : World) (c : Client) (inst : Instance)
    (rb jobByte : String) (ss : List String) (fuel : Nat)
    (htrig : CreateTriggered w c inst 0 rb jobByte)
    (hurl : w.parseURL (jobURL c (TrimSuffix jobByte "\n")) = none)
    (hrun : PendingRun w 1 ⟨"pending"⟩ ss) :
    CreateInstance w c inst (ss.length + 1 + fuel) St.init =
      (nextFetch w c (TrimSuffix jobByte "\n") fuel (endJob ⟨"pending"⟩ ss)
        ⟨1 + ss.length, createEvent w c rb ::
          pollTrace (statusEvent w c (TrimSuffix jobByte "\n")) ss.length⟩).map
        (fun r => (r.1.toCreate inst (TrimSuffix jobByte "\n"), r.2)) := by
  rw [CreateInstance_triggered w c inst _ St.init rb jobByte htrig]
  have h := pollLoop_continue w c (TrimSuffix jobByte "\n") hurl fuel ss ⟨"pending"⟩
    ⟨St.init.calls + 1, St.init.trace ++ [createEvent w c rb]⟩ pending_not_terminal
    (by simpa [St.init] using hrun)
  rw [h]
  simp [St.init]

theorem DeleteInstance_continue (w : World) (c : Client) (id : String)
    (jobByte : String) (ss : List String) (fuel : Nat)
    (htrig : DeleteTriggered w c id 0 jobByte)
    (hurl : w.parseURL (jobURL c (TrimSuffix jobByte "\n")) = none)
    (hrun : PendingRun w 1 ⟨"pending"⟩ ss) :
    DeleteInstance w c id (ss.length + 1 + fuel) St.init =
      (nextFetch w c (TrimSuffix jobByte "\n") fuel (endJob ⟨"pending"⟩ ss)
        ⟨1 + ss.length, deleteEvent w c id ::
          pollTrace (statusEvent w c (TrimSuffix jobByte "\n")) ss.length⟩).map
        (fun r => (r.1.toDelete (TrimSuffix jobByte "\n"), r.2)) := by
  rw [DeleteInstance_triggered w c id _ St.init jobByte htrig]
  have h := pollLoop_continue w c (TrimSuffix jobByte "\n") hurl fuel ss ⟨"pending"⟩
    ⟨St.init.calls + 1, St.init.trace ++ [deleteEvent w c id]⟩ pending_not_terminal
    (by simpa [St.init] using hrun)
  rw [h]
  simp [St.init]

theorem statusRequests_create_fail_trace (w : World) (c : Client) (rb jobStr : String)
    (n : Nat) :
    statusRequests c jobStr (createEvent w c rb ::
      (pollTrace (statusEvent w c jobStr) n ++ [statusEvent w c jobStr])) = n + 1 := by
  have h := statusRequests_fetch w c jobStr
    (createEvent w c rb :: pollTrace (statusEvent w c jobStr) n)
  rw [statusRequests_create_trace] at h
  simpa using h

theorem statusRequests_delete_fail_trace (w : World) (c : Client) (id jobStr : String)
    (n : Nat) :
    statusRequests c jobStr (deleteEvent w c id ::
      (pollTrace (statusEvent w c jobStr) n ++ [statusEvent w c jobStr])) = n + 1 := by
  have h := statusRequests_fetch w c jobStr
    (deleteEvent w c id :: pollTrace (statusEvent w c jobStr) n)
  rw [statusRequests_delete_trace] at h
  simpa using h

theorem sleeps_create_fail_trace (w : World) (c : Client) (rb jobStr : String) (n : Nat) :
    sleeps (createEvent w c rb ::
      (pollTrace (statusEvent w c jobStr) n ++ [statusEvent w c jobStr])) = n := by
  have h := sleeps_append (createEvent w c rb :: pollTrace (statusEvent w c jobStr) n)
    [statusEvent w c jobStr]
  rw [sleeps_create_trace] at h
  simpa [sleeps, statusEvent, Event.isSleep] using h

theorem sleeps_delete_fail_trace (w : World) (c : Client) (id jobStr : String) (n : Nat) :
    sleeps (deleteEvent w c id ::
      (pollTrace (statusEvent w c jobStr) n ++ [statusEvent w c jobStr])) = n := by
  have h := sleeps_append (deleteEvent w c id :: pollTrace (statusEvent w c jobStr) n)
    [statusEvent w c jobStr]
  rw [sleeps_delete_trace] at h
  simpa [sleeps, statusEvent, Event.isSleep] using h

/-! ## No fire and forget -/

/-- C7. No fire-and-forget path. A run of CreateInstance or DeleteInstance that
returns success was triggered, made at least one job-status request, and its
last exchange decoded to "success". The loop starts from the client-assigned
status "pending", and decoded statuses other than "success" and "error" (any
strings, the empty one included) never end it. After n of them in a row (the
list `ss`), with the job-status request buildable: the call has not returned
with fuel for n iterations; with any more fuel it is the continuation
`nextFetch`, that is, it makes the next job-status request, the (n+1)-th, and
only then returns or goes on: it returns the error of that fetch if it fails,
returns after it if it decodes to a terminal status, and is in the same
situation with n + 1 statuses if it decodes to another non-terminal one. The
traces at that point hold n + 1 job-status requests, and so does every run
that returns. -/
theorem no_fire_and_forget (w : World) (c : Client) (inst : Instance) (id : String) :
    (∀ fuel r st1, CreateInstance w c inst fuel St.init = some (.ok r, st1) →
      ∃ jobByte prev, w.roundTrip 0 = .ok ⟨200, .ok jobByte⟩ ∧
        1 ≤ statusRequests c (TrimSuffix jobByte "\n") st1.trace ∧
        2 ≤ st1.calls ∧ DecodesTo w (st1.calls - 1) prev "success") ∧
    (∀ fuel st1, DeleteInstance w c id fuel St.init = some (.ok (), st1) →
      ∃ jobByte prev, w.roundTrip 0 = .ok ⟨200, .ok jobByte⟩ ∧
        1 ≤ statusRequests c (TrimSuffix jobByte "\n") st1.trace ∧
        2 ≤ st1.calls ∧ DecodesTo w (st1.calls - 1) prev "success") ∧
    (∀ rb jobByte ss, CreateTriggered w c inst 0 rb jobByte →
      w.parseURL (jobURL c (TrimSuffix jobByte "\n")) = none →
      PendingRun w 1 ⟨"pending"⟩ ss →
        (∀ fuel, fuel ≤ ss.length → CreateInstance w c inst fuel St.init = none) ∧
        (∀ fuel, CreateInstance w c inst (ss.length + 1 + fuel) St.init =
          (nextFetch w c (TrimSuffix jobByte "\n") fuel (endJob ⟨"pending"⟩ ss)
            ⟨1 + ss.length, createEvent w c rb ::
              pollTrace (statusEvent w c (TrimSuffix jobByte "\n")) ss.length⟩).map
            (fun r => (r.1.toCreate inst (TrimSuffix jobByte "\n"), r.2))) ∧
        (∀ fuel e, FetchFails w c (1 + ss.length) (endJob ⟨"pending"⟩ ss) e →
          CreateInstance w c inst (ss.length + 1 + fuel) St.init =
            some (.error e, ⟨ss.length + 2, createEvent w c rb ::
              (pollTrace (statusEvent w c (TrimSuffix jobByte "\n")) ss.length ++
                [statusEvent w c (TrimSuffix jobByte "\n")])⟩)) ∧
        (∀ fuel s, Terminal s → DecodesTo w (1 + ss.length) (endJob ⟨"pending"⟩ ss) s →
          CreateInstance w c inst (ss.length + 2 + fuel) St.init =
            some ((outcomeOf s).toCreate inst (TrimSuffix jobByte "\n"),
              ⟨ss.length + 2, createEvent w c rb ::
                pollTrace (statusEvent w c (TrimSuffix jobByte "\n")) (ss.length + 1)⟩)) ∧
        (∀ s, ¬ Terminal s → DecodesTo w (1 + ss.length) (endJob ⟨"pending"⟩ ss) s →
          PendingRun w 1 ⟨"pending"⟩ (ss ++ [s])) ∧
        statusRequests c (TrimSuffix jobByte "\n") (createEvent w c rb ::
          (pollTrace (statusEvent w c (TrimSuffix jobByte "\n")) ss.length ++
            [statusEvent w c (TrimSuffix jobByte "\n")])) = ss.length + 1 ∧
        statusRequests c (TrimSuffix jobByte "\n") (createEvent w c rb ::
          pollTrace (statusEvent w c (TrimSuffix jobByte "\n")) (ss.length + 1)) =
            ss.length + 1 ∧
        (∀ fuel r st1, CreateInstance w c inst fuel St.init = some (r, st1) →
          ss.length + 1 ≤ statusRequests c (TrimSuffix jobByte "\n") st1.trace)) ∧
    (∀ jobByte ss, DeleteTriggered w c id 0 jobByte →
      w.parseURL (jobURL c (TrimSuffix jobByte "\n")) = none →
      PendingRun w 1 ⟨"pending"⟩ ss →
        (∀ fuel, fuel ≤ ss.length → DeleteInstance w c id fuel St.init = none) ∧
        (∀ fuel, DeleteInstance w c id (ss.length + 1 + fuel) St.init =
          (nextFetch w c (TrimSuffix jobByte "\n") fuel (endJob ⟨"pending"⟩ ss)
            ⟨1 + ss.length, deleteEvent w c id ::
              pollTrace (statusEvent w c (TrimSuffix jobByte "\n")) ss.length⟩).map
            (fun r => (r.1.toDelete (TrimSuffix jobByte "\n"), r.2))) ∧
        (∀ fuel e, FetchFails w c (1 + ss.length) (endJob ⟨"pending"⟩ ss) e →
          DeleteInstance w c id (ss.length + 1 + fuel) St.init =
            some (.error e, ⟨ss.length + 2, deleteEvent w c id ::
              (pollTrace (statusEvent w c (TrimSuffix jobByte "\n")) ss.length ++
                [statusEvent w c (TrimSuffix jobByte "\n")])⟩)) ∧
        (∀ fuel s, Terminal s → DecodesTo w (1 + ss.length) (endJob ⟨"pending"⟩ ss) s →
          DeleteInstance w c id (ss.length + 2 + fuel) St.init =
            some ((outcomeOf s).toDelete (TrimSuffix jobByte "\n"),
              ⟨ss.length + 2, deleteEvent w c id ::
                pollTrace (statusEvent w c (TrimSuffix jobByte "\n")) (ss.length + 1)⟩)) ∧
        (∀ s, ¬ Terminal s → DecodesTo w (1 + ss.length) (endJob ⟨"pending"⟩ ss) s →
          PendingRun w 1 ⟨"pending"⟩ (ss ++ [s])) ∧
        statusRequests c (TrimSuffix jobByte "\n") (deleteEvent w c id ::
          (pollTrace (statusEvent w c (TrimSuffix jobByte "\n")) ss.length ++
            [statusEvent w c (TrimSuffix jobByte "\n")])) = ss.length + 1 ∧
        statusRequests c (TrimSuffix jobByte "\n") (deleteEvent w c id ::
          pollTrace (statusEvent w c (TrimSuffix jobByte "\n")) (ss.length + 1)) =
            ss.length + 1 ∧
        (∀ fuel r st1, DeleteInstance w c id fuel St.init = some (r, st1) →
          ss.length + 1 ≤ statusRequests c (TrimSuffix jobByte "\n") st1.trace)) := by
  refine ⟨?_, ?_, ?_, ?_⟩
  · intro fuel r st1 h
    obtain ⟨rb, jobByte, htrig, _, hpl⟩ := CreateInstance_ok_inv w c inst r fuel St.init st1 h
    rcases pollLoop_success_inv w c _ fuel _ _ _ hpl with ⟨hs, _⟩ | ⟨hlt, ⟨prev, hdec⟩, hcnt⟩
    · exact absurd hs (by decide)
    · refine ⟨jobByte, prev, htrig.2.2, by omega, ?_, hdec⟩
      simp only [St.init] at hlt
      omega
  · intro fuel st1 h
    obtain ⟨jobByte, htrig, hpl⟩ := DeleteInstance_ok_inv w c id fuel St.init st1 h
    rcases pollLoop_success_inv w c _ fuel _ _ _ hpl with ⟨hs, _⟩ | ⟨hlt, ⟨prev, hdec⟩, hcnt⟩
    · exact absurd hs (by decide)
    · refine ⟨jobByte, prev, htrig.2, by omega, ?_, hdec⟩
      simp only [St.init] at hlt
      omega
  · intro rb jobByte ss htrig hurl hrun
    have hrun1 : PendingRun w (St.mk (St.init.calls + 1)
        (St.init.trace ++ [createEvent w c rb])).calls ⟨"pending"⟩ ss := by
      simpa [St.init] using hrun
    refine ⟨?_, ?_, ?_, ?_, ?_, ?_, ?_, ?_⟩
    · intro fuel hfuel
      rw [CreateInstance_triggered w c inst fuel St.init rb jobByte htrig,
        pollLoop_pending_none w c _ hurl ss _ _ pending_not_terminal hrun1 fuel hfuel]
      rfl
    · intro fuel
      exact CreateInstance_continue w c inst rb jobByte ss fuel htrig hurl hrun
    · intro fuel e hfail
      exact CreateInstance_run_fail w c inst rb jobByte ss fuel e htrig hurl hrun hfail
    · intro fuel s hterm hd
      exact CreateInstance_run_terminal w c inst rb jobByte ss fuel s htrig hurl hrun hterm hd
    · intro s hs hd
      exact PendingRun_append w s hs ss 1 ⟨"pending"⟩ hrun hd
    · exact statusRequests_create_fail_trace w c rb _ _
    · exact statusRequests_create_trace w c rb _ _
    · intro fuel r st1 h
      rw [CreateInstance_triggered w c inst fuel St.init rb jobByte htrig] at h
      cases hpl : pollLoop w c (TrimSuffix jobByte "\n") fuel ⟨"pending"⟩
          ⟨St.init.calls + 1, St.init.trace ++ [createEvent w c rb]⟩ with
      | none => rw [hpl] at h; simp at h
      | some x =>
        rw [hpl] at h
        obtain ⟨o, st2⟩ := x
        simp only [Option.map_some', Option.some.injEq, Prod.mk.injEq] at h
        obtain ⟨_, rfl⟩ := h
        have := pollLoop_pending_bound w c _ hurl ss _ _ pending_not_terminal hrun1 fuel o st2 hpl
        omega
  · intro jobByte ss htrig hurl hrun
    have hrun1 : PendingRun w (St.mk (St.init.calls + 1)
        (St.init.trace ++ [deleteEvent w c id])).calls ⟨"pending"⟩ ss := by
      simpa [St.init] using hrun
    refine ⟨?_, ?_, ?_, ?_, ?_, ?_, ?_, ?_⟩
    · intro fuel hfuel
      rw [DeleteInstance_triggered w c id fuel St.init jobByte htrig,
        pollLoop_pending_none w c _ hurl ss _ _ pending_not_terminal hrun1 fuel hfuel]
      rfl
    · intro fuel
      exact DeleteInstance_continue w c id jobByte ss fuel htrig hurl hrun
    · intro fuel e hfail
      exact DeleteInstance_run_fail w c id jobByte ss fuel e htrig hurl hrun hfail
    · intro fuel s hterm hd
      exact DeleteInstance_run_terminal w c id jobByte ss fuel s htrig hurl hrun hterm hd
    · intro s hs hd
      exact PendingRun_append w s hs ss 1 ⟨"pending"⟩ hrun hd
    · exact statusRequests_delete_fail_trace w c id _ _
    · exact statusRequests_delete_trace w c id _ _
    · intro fuel r st1 h
      rw [DeleteInstance_triggered w c id fuel St.init jobByte htrig] at h
      cases hpl : pollLoop w c (TrimSuffix jobByte "\n") fuel ⟨"pending"⟩
          ⟨St.init.calls + 1, St.init.trace ++ [deleteEvent w c id]⟩ with
      | none => rw [hpl] at h; simp at h
      | some x =>
        rw [hpl] at h
        obtain ⟨o, st2⟩ := x
        simp only [Option.map_some', Option.some.injEq, Prod.mk.injEq] at h
        obtain ⟨_, rfl⟩ := h
        have := pollLoop_pending_bound w c _ hurl ss _ _ pending_not_terminal hrun1 fuel o st2 hpl
        omega

/-- Witness of C7: job 42 answers queued, the empty status, success. The
successful runs made at least one job-status request and ended on a decoded
"success"; with fuel for two iterations neither call has returned; with more
fuel the third request is made and the calls return after it. When job 42
answers pending and then a body that is not a job, the second request is made
and its decoding error returned. -/
theorem no_fire_and_forget_witness :
    (∃ jobByte prev, worldQueuedBlankSuccess.roundTrip 0 = .ok ⟨200, .ok jobByte⟩ ∧
      1 ≤ statusRequests demoClient (TrimSuffix jobByte "\n")
        (createEvent worldQueuedBlankSuccess demoClient (instanceBody demoInstance) ::
          pollTrace (statusEvent worldQueuedBlankSuccess demoClient "42") 3) ∧
      2 ≤ 4 ∧ DecodesTo worldQueuedBlankSuccess (4 - 1) prev "success") ∧
    (∃ jobByte prev, worldQueuedBlankSuccess.roundTrip 0 = .ok ⟨200, .ok jobByte⟩ ∧
      1 ≤ statusRequests demoClient (TrimSuffix jobByte "\n")
        (deleteEvent worldQueuedBlankSuccess demoClient "vm1.example" ::
          pollTrace (statusEvent worldQueuedBlankSuccess demoClient "42") 3) ∧
      2 ≤ 4 ∧ DecodesTo worldQueuedBlankSuccess (4 - 1) prev "success") ∧
    CreateInstance worldQueuedBlankSuccess demoClient demoInstance 2 St.init = none ∧
    DeleteInstance worldQueuedBlankSuccess demoClient "vm1.example" 2 St.init = none ∧
    CreateInstance worldQueuedBlankSuccess demoClient demoInstance 4 St.init =
      some (.ok demoInstance,
        ⟨4, createEvent worldQueuedBlankSuccess demoClient (instanceBody demoInstance) ::
          pollTrace (statusEvent worldQueuedBlankSuccess demoClient "42") 3⟩) ∧
    DeleteInstance worldQueuedBlankSuccess demoClient "vm1.example" 4 St.init =
      some (.ok (),
        ⟨4, deleteEvent worldQueuedBlankSuccess demoClient "vm1.example" ::
          pollTrace (statusEvent worldQueuedBlankSuccess demoClient "42") 3⟩) ∧
    CreateInstance worldQueuedBlankSuccess demoClient demoInstance 3 St.init = none ∧
    3 ≤ statusRequests demoClient "42"
      (createEvent worldQueuedBlankSuccess demoClient (instanceBody demoInstance) ::
        pollTrace (statusEvent worldQueuedBlankSuccess demoClient "42") 3) ∧
    3 ≤ statusRequests demoClient "42"
      (deleteEvent worldQueuedBlankSuccess demoClient "vm1.example" ::
        pollTrace (statusEvent worldQueuedBlankSuccess demoClient "42") 3) ∧
    CreateInstance worldPendingGarbage demoClient demoInstance 2 St.init =
      some (.error (.lib "invalid character looking for beginning of value"),
        ⟨3, createEvent worldPendingGarbage demoClient (instanceBody demoInstance) ::
          (pollTrace (statusEvent worldPendingGarbage demoClient "42") 1 ++
            [statusEvent worldPendingGarbage demoClient "42"])⟩) ∧
    DeleteInstance worldPendingGarbage demoClient "vm1.example" 2 St.init =
      some (.error (.lib "invalid character looking for beginning of value"),
        ⟨3, deleteEvent worldPendingGarbage demoClient "vm1.example" ::
          (pollTrace (statusEvent worldPendingGarbage demoClient "42") 1 ++
            [statusEvent worldPendingGarbage demoClient "42"])⟩) ∧
    PendingRun worldQueuedBlankSuccess 1 ⟨"pending"⟩ (["queued"] ++ [""]) :=
  have h := no_fire_and_forget worldQueuedBlankSuccess demoClient demoInstance "vm1.example"
  have g := no_fire_and_forget worldPendingGarbage demoClient demoInstance "vm1.example"
  have hrun : PendingRun worldQueuedBlankSuccess 1 ⟨"pending"⟩ ["queued", ""] :=
    ⟨by decide, ⟨_, rfl, rfl⟩, by decide, ⟨_, rfl, rfl⟩, trivial⟩
  have hrun1 : PendingRun worldQueuedBlankSuccess 1 ⟨"pending"⟩ ["queued"] :=
    ⟨by decide, ⟨_, rfl, rfl⟩, trivial⟩
  have grun : PendingRun worldPendingGarbage 1 ⟨"pending"⟩ ["pending"] :=
    ⟨by decide, ⟨_, rfl, rfl⟩, trivial⟩
  have hc := h.2.2.1 (instanceBody demoInstance) "42\n" ["queued", ""] ⟨rfl, rfl, rfl⟩ rfl hrun
  have hd := h.2.2.2 "42\n" ["queued", ""] ⟨rfl, rfl⟩ rfl hrun
  have hc1 := h.2.2.1 (instanceBody demoInstance) "42\n" ["queued"] ⟨rfl, rfl, rfl⟩ rfl hrun1
  have gc := g.2.2.1 (instanceBody demoInstance) "42\n" ["pending"] ⟨rfl, rfl, rfl⟩ rfl grun
  have gd := g.2.2.2 "42\n" ["pending"] ⟨rfl, rfl⟩ rfl grun
  ⟨h.1 4 demoInstance ⟨4, _⟩ rfl, h.2.1 4 ⟨4, _⟩ rfl, hc.1 2 (by decide), hd.1 2 (by decide),
    hc.2.2.2.1 0 "success" (Or.inl rfl) ⟨_, rfl, rfl⟩,
    hd.2.2.2.1 0 "success" (Or.inl rfl) ⟨_, rfl, rfl⟩,
    hc.2.1 0,
    hc.2.2.2.2.2.2.2 4 (.ok demoInstance) ⟨4, _⟩ rfl,
    hd.2.2.2.2.2.2.2 4 (.ok ()) ⟨4, _⟩ rfl,
    gc.2.2.1 0 (.lib "invalid character looking for beginning of value")
      (Or.inr ⟨"<html>", rfl, rfl⟩),
    gd.2.2.1 0 (.lib "invalid character looking for beginning of value")
      (Or.inr ⟨"<html>", rfl, rfl⟩),
    hc1.2.2.2.2.1 "" (by decide) ⟨_, rfl, rfl⟩⟩

/-! ## Where the suspensions are -/

theorem sleeps_nil_or_trigger (ev : Event) (h : ev.isSleep = false) :
    sleeps ([] : List Event) = 0 ∧ sleeps [ev] = 0 := by
  simp [sleeps, h]

/-- C10, amended. The 10-second suspension follows every job-status fetch that
was answered and decoded, whatever the status, and nothing else, in
CreateInstance and in DeleteInstance alike.
(a) A run that ends on a terminal status `s` after k status fetches (k - 1
non-terminal ones, the list `ss`, then `s`) has the trace trigger, fetch,
sleep, ..., fetch, sleep: exactly k suspensions, each right after a fetch, the
last one after the terminal status was fetched.
(b) A run whose fetch fails after n decoded non-terminal statuses has the
trace trigger, fetch, sleep, ..., fetch, sleep, fetch: n suspensions, and the
failed fetch is the last event, with no suspension after it.
(c) A run whose job-status request cannot be built has the trace trigger: no
suspension.
(d) Every run that returns is one of these, or returned an error before the
loop with no suspension at all. -/
theorem sleep_after_every_decoded_fetch (w : World) (c : Client) (inst : Instance)
    (id : String) :
    (∀ (rb jobByte : String) (ss : List String) (extra : Nat) (s : String),
      CreateTriggered w c inst 0 rb jobByte → DeleteTriggered w c id 0 jobByte →
      w.parseURL (jobURL c (TrimSuffix jobByte "\n")) = none →
      PendingRun w 1 ⟨"pending"⟩ ss → Terminal s →
      DecodesTo w (1 + ss.length) (endJob ⟨"pending"⟩ ss) s →
      ∃ rC rD stC stD,
        CreateInstance w c inst (ss.length + 2 + extra) St.init = some (rC, stC) ∧
        DeleteInstance w c id (ss.length + 2 + extra) St.init = some (rD, stD) ∧
        stC.trace = createEvent w c rb ::
          pollTrace (statusEvent w c (TrimSuffix jobByte "\n")) (ss.length + 1) ∧
        stD.trace = deleteEvent w c id ::
          pollTrace (statusEvent w c (TrimSuffix jobByte "\n")) (ss.length + 1) ∧
        statusRequests c (TrimSuffix jobByte "\n") stC.trace = ss.length + 1 ∧
        statusRequests c (TrimSuffix jobByte "\n") stD.trace = ss.length + 1 ∧
        sleeps stC.trace = ss.length + 1 ∧ sleeps stD.trace = ss.length + 1 ∧
        stC.trace.getLast? = some (Event.sleep 10) ∧
        stD.trace.getLast? = some (Event.sleep 10)) ∧
    (∀ (rb jobByte : String) (ss : List String) (extra : Nat) (e : GoError),
      CreateTriggered w c inst 0 rb jobByte → DeleteTriggered w c id 0 jobByte →
      w.parseURL (jobURL c (TrimSuffix jobByte "\n")) = none →
      PendingRun w 1 ⟨"pending"⟩ ss →
      FetchFails w c (1 + ss.length) (endJob ⟨"pending"⟩ ss) e →
      ∃ stC stD,
        CreateInstance w c inst (ss.length + 1 + extra) St.init = some (.error e, stC) ∧
        DeleteInstance w c id (ss.length + 1 + extra) St.init = some (.error e, stD) ∧
        stC.trace = createEvent w c rb ::
          (pollTrace (statusEvent w c (TrimSuffix jobByte "\n")) ss.length ++
            [statusEvent w c (TrimSuffix jobByte "\n")]) ∧
        stD.trace = deleteEvent w c id ::
          (pollTrace (statusEvent w c (TrimSuffix jobByte "\n")) ss.length ++
            [statusEvent w c (TrimSuffix jobByte "\n")]) ∧
        statusRequests c (TrimSuffix jobByte "\n") stC.trace = ss.length + 1 ∧
        statusRequests c (TrimSuffix jobByte "\n") stD.trace = ss.length + 1 ∧
        sleeps stC.trace = ss.length ∧ sleeps stD.trace = ss.length ∧
        stC.trace.getLast? = some (statusEvent w c (TrimSuffix jobByte "\n")) ∧
        stD.trace.getLast? = some (statusEvent w c (TrimSuffix jobByte "\n"))) ∧
    (∀ (rb jobByte : String) (e : GoError) (fuel : Nat),
      CreateTriggered w c inst 0 rb jobByte → DeleteTriggered w c id 0 jobByte →
      w.parseURL (jobURL c (TrimSuffix jobByte "\n")) = some e →
        CreateInstance w c inst (fuel + 1) St.init =
          some (.error e, ⟨1, [createEvent w c rb]⟩) ∧
        DeleteInstance w c id (fuel + 1) St.init =
          some (.error e, ⟨1, [deleteEvent w c id]⟩) ∧
        sleeps [createEvent w c rb] = 0 ∧ sleeps [deleteEvent w c id] = 0) ∧
    (∀ fuel r st1, CreateInstance w c inst fuel St.init = some (r, st1) →
      ((∃ e, r = .error e) ∧ st1.calls ≤ 1 ∧ sleeps st1.trace = 0) ∨
      (∃ (rb b : String) (ss : List String), CreateTriggered w c inst 0 rb b ∧
        w.parseURL (jobURL c (TrimSuffix b "\n")) = none ∧ PendingRun w 1 ⟨"pending"⟩ ss ∧
        ((∃ s, Terminal s ∧ DecodesTo w (1 + ss.length) (endJob ⟨"pending"⟩ ss) s ∧
            r = (outcomeOf s).toCreate inst (TrimSuffix b "\n") ∧
            st1 = ⟨ss.length + 2, createEvent w c rb ::
              pollTrace (statusEvent w c (TrimSuffix b "\n")) (ss.length + 1)⟩ ∧
            sleeps st1.trace = ss.length + 1) ∨
          (∃ e, FetchFails w c (1 + ss.length) (endJob ⟨"pending"⟩ ss) e ∧
            r = .error e ∧
            st1 = ⟨ss.length + 2, createEvent w c rb ::
              (pollTrace (statusEvent w c (TrimSuffix b "\n")) ss.length ++
                [statusEvent w c (TrimSuffix b "\n")])⟩ ∧
            sleeps st1.trace = ss.length)))) ∧
    (∀ fuel r st1, DeleteInstance w c id fuel St.init = some (r, st1) →
      ((∃ e, r = .error e) ∧ st1.calls ≤ 1 ∧ sleeps st1.trace = 0) ∨
      (∃ (b : String) (ss : List String), DeleteTriggered w c id 0 b ∧
        w.parseURL (jobURL c (TrimSuffix b "\n")) = none ∧ PendingRun w 1 ⟨"pending"⟩ ss ∧
        ((∃ s, Terminal s ∧ DecodesTo w (1 + ss.length) (endJob ⟨"pending"⟩ ss) s ∧
            r = (outcomeOf s).toDelete (TrimSuffix b "\n") ∧
            st1 = ⟨ss.length + 2, deleteEvent w c id ::
              pollTrace (statusEvent w c (TrimSuffix b "\n")) (ss.length + 1)⟩ ∧
            sleeps st1.trace = ss.length + 1) ∨
          (∃ e, FetchFails w c (1 + ss.length) (endJob ⟨"pending"⟩ ss) e ∧
            r = .error e ∧
            st1 = ⟨ss.length + 2, deleteEvent w c id ::
              (pollTrace (statusEvent w c (TrimSuffix b "\n")) ss.length ++
                [statusEvent w c (TrimSuffix b "\n")])⟩ ∧
            sleeps st1.trace = ss.length)))) := by
  have hce : ∀ rb, (createEvent w c rb).isSleep = false := fun _ => rfl
  have hde : (deleteEvent w c id).isSleep = false := rfl
  refine ⟨?_, ?_, ?_, ?_, ?_⟩
  · intro rb jobByte ss extra s htrigC htrigD hurl hrun hterm hlast
    exact ⟨_, _, _, _,
      CreateInstance_run_terminal w c inst rb jobByte ss extra s htrigC hurl hrun hterm hlast,
      DeleteInstance_run_terminal w c id jobByte ss extra s htrigD hurl hrun hterm hlast,
      rfl, rfl, statusRequests_create_trace w c rb _ _, statusRequests_delete_trace w c id _ _,
      sleeps_create_trace w c rb _ _, sleeps_delete_trace w c id _ _,
      getLast?_cons_pollTrace _ _ _, getLast?_cons_pollTrace _ _ _⟩
  · intro rb jobByte ss extra e htrigC htrigD hurl hrun hfail
    exact ⟨_, _,
      CreateInstance_run_fail w c inst rb jobByte ss extra e htrigC hurl hrun hfail,
      DeleteInstance_run_fail w c id jobByte ss extra e htrigD hurl hrun hfail,
      rfl, rfl, statusRequests_create_fail_trace w c rb _ _,
      statusRequests_delete_fail_trace w c id _ _,
      sleeps_create_fail_trace w c rb _ _, sleeps_delete_fail_trace w c id _ _,
      getLast?_cons_concat _ _ _, getLast?_cons_concat _ _ _⟩
  · intro rb jobByte e fuel htrigC htrigD hurl
    exact ⟨CreateInstance_badURL w c inst rb jobByte e fuel htrigC hurl,
      DeleteInstance_badURL w c id jobByte e fuel htrigD hurl,
      (sleeps_nil_or_trigger _ (hce rb)).2, (sleeps_nil_or_trigger _ hde).2⟩
  · intro fuel r st1 h
    rcases CreateInstance_inv w c inst fuel r st1 h with
      ⟨he, hst | ⟨rb, hst⟩⟩ | ⟨rb, b, o, htrig, hpl, hr⟩
    · left; subst hst; exact ⟨he, by simp [St.init], by simp [St.init, sleeps]⟩
    · left; subst hst; exact ⟨he, Nat.le_refl _, (sleeps_nil_or_trigger _ (hce rb)).2⟩
    · rcases pollLoop_inv w c _ fuel _ _ o st1 pending_not_terminal hpl with
        ⟨e, _, ho, hst⟩ | ⟨hurl, ss, hrun, hcase⟩
      · left
        subst hst ho
        exact ⟨⟨e, hr⟩, Nat.le_refl _, (sleeps_nil_or_trigger _ (hce rb)).2⟩
      · right
        refine ⟨rb, b, ss, htrig, hurl, hrun, ?_⟩
        rcases hcase with ⟨s, hterm, hd, ho, hst⟩ | ⟨e, hf, ho, hst⟩
        · refine Or.inl ⟨s, hterm, hd, by rw [hr, ho], ?_, ?_⟩
          · rw [hst]; simp only [St.mk.injEq, List.singleton_append]
            exact ⟨by omega, trivial⟩
          · rw [hst]; exact sleeps_create_trace w c rb _ _
        · refine Or.inr ⟨e, hf, by rw [hr, ho]; rfl, ?_, ?_⟩
          · rw [hst]; simp only [St.mk.injEq, List.singleton_append, List.cons_append]
            exact ⟨by omega, by simp⟩
          · rw [hst]; exact sleeps_create_fail_trace w c rb _ _
  · intro fuel r st1 h
    rcases DeleteInstance_inv w c id fuel r st1 h with
      ⟨he, hst | hst⟩ | ⟨b, o, htrig, hpl, hr⟩
    · left; subst hst; exact ⟨he, by simp [St.init], by simp [St.init, sleeps]⟩
    · left; subst hst; exact ⟨he, Nat.le_refl _, (sleeps_nil_or_trigger _ hde).2⟩
    · rcases pollLoop_inv w c _ fuel _ _ o st1 pending_not_terminal hpl with
        ⟨e, _, ho, hst⟩ | ⟨hurl, ss, hrun, hcase⟩
      · left
        subst hst ho
        exact ⟨⟨e, hr⟩, Nat.le_refl _, (sleeps_nil_or_trigger _ hde).2⟩
      · right
        refine ⟨b, ss, htrig, hurl, hrun, ?_⟩
        rcases hcase with ⟨s, hterm, hd, ho, hst⟩ | ⟨e, hf, ho, hst⟩
        · refine Or.inl ⟨s, hterm, hd, by rw [hr, ho], ?_, ?_⟩
          · rw [hst]; simp only [St.mk.injEq, List.singleton_append]
            exact ⟨by omega, trivial⟩
          · rw [hst]; exact sleeps_delete_trace w c id _ _
        · refine Or.inr ⟨e, hf, by rw [hr, ho]; rfl, ?_, ?_⟩
          · rw [hst]; simp only [St.mk.injEq, List.singleton_append, List.cons_append]
            exact ⟨by omega, by simp⟩
          · rw [hst]; exact sleeps_delete_fail_trace w c id _ _

/-- Witness of C10 amended: pending, pending, success gives three fetches and
three suspensions, for create and for delete; pending and then a body that is
not a job gives two fetches and one suspension, the failed fetch last; a job
ID whose URL is refused gives no suspension; and the run on the undecodable
body is recognised as a failed-fetch run. -/
theorem sleep_after_every_decoded_fetch_witness :
    (∃ rC rD stC stD,
      CreateInstance worldPendingPendingSuccess demoClient demoInstance 4 St.init =
        some (rC, stC) ∧
      DeleteInstance worldPendingPendingSuccess demoClient "vm1.example" 4 St.init =
        some (rD, stD) ∧
      stC.trace = createEvent worldPendingPendingSuccess demoClient (instanceBody demoInstance) ::
        pollTrace (statusEvent worldPendingPendingSuccess demoClient "42") 3 ∧
      stD.trace = deleteEvent worldPendingPendingSuccess demoClient "vm1.example" ::
        pollTrace (statusEvent worldPendingPendingSuccess demoClient "42") 3 ∧
      statusRequests demoClient "42" stC.trace = 3 ∧
      statusRequests demoClient "42" stD.trace = 3 ∧
      sleeps stC.trace = 3 ∧ sleeps stD.trace = 3 ∧
      stC.trace.getLast? = some (Event.sleep 10) ∧
      stD.trace.getLast? = some (Event.sleep 10)) ∧
    (∃ stC stD,
      CreateInstance worldPendingGarbage demoClient demoInstance 2 St.init =
        some (.error (.lib "invalid character looking for beginning of value"), stC) ∧
      DeleteInstance worldPendingGarbage demoClient "vm1.example" 2 St.init =
        some (.error (.lib "invalid character looking for beginning of value"), stD) ∧
      stC.trace = createEvent worldPendingGarbage demoClient (instanceBody demoInstance) ::
        (pollTrace (statusEvent worldPendingGarbage demoClient "42") 1 ++
          [statusEvent worldPendingGarbage demoClient "42"]) ∧
      stD.trace = deleteEvent worldPendingGarbage demoClient "vm1.example" ::
        (pollTrace (statusEvent worldPendingGarbage demoClient "42") 1 ++
          [statusEvent worldPendingGarbage demoClient "42"]) ∧
      statusRequests demoClient "42" stC.trace = 2 ∧
      statusRequests demoClient "42" stD.trace = 2 ∧
      sleeps stC.trace = 1 ∧ sleeps stD.trace = 1 ∧
      stC.trace.getLast? = some (statusEvent worldPendingGarbage demoClient "42") ∧
      stD.trace.getLast? = some (statusEvent worldPendingGarbage demoClient "42")) ∧
    (CreateInstance worldDoubleNewline demoClient demoInstance 1 St.init =
        some (.error (.lib "net/url: invalid control character in URL"),
          ⟨1, [createEvent worldDoubleNewline demoClient (instanceBody demoInstance)]⟩) ∧
      DeleteInstance worldDoubleNewline demoClient "vm1.example" 1 St.init =
        some (.error (.lib "net/url: invalid control character in URL"),
          ⟨1, [deleteEvent worldDoubleNewline demoClient "vm1.example"]⟩) ∧
      sleeps [createEvent worldDoubleNewline demoClient (instanceBody demoInstance)] = 0 ∧
      sleeps [deleteEvent worldDoubleNewline demoClient "vm1.example"] = 0) ∧
    (((∃ e, (Except.error (.lib "invalid character looking for beginning of value") :
          Except GoError Instance) = .error e) ∧ 3 ≤ 1 ∧
        sleeps (createEvent worldPendingGarbage demoClient (instanceBody demoInstance) ::
          (pollTrace (statusEvent worldPendingGarbage demoClient "42") 1 ++
            [statusEvent worldPendingGarbage demoClient "42"])) = 0) ∨
      (∃ (rb b : String) (ss : List String),
        CreateTriggered worldPendingGarbage demoClient demoInstance 0 rb b ∧
        worldPendingGarbage.parseURL (jobURL demoClient (TrimSuffix b "\n")) = none ∧
        PendingRun worldPendingGarbage 1 ⟨"pending"⟩ ss ∧
        ((∃ s, Terminal s ∧
            DecodesTo worldPendingGarbage (1 + ss.length) (endJob ⟨"pending"⟩ ss) s ∧
            (Except.error (.lib "invalid character looking for beginning of value") :
              Except GoError Instance) =
              (outcomeOf s).toCreate demoInstance (TrimSuffix b "\n") ∧
            (⟨3, createEvent worldPendingGarbage demoClient (instanceBody demoInstance) ::
              (pollTrace (statusEvent worldPendingGarbage demoClient "42") 1 ++
                [statusEvent worldPendingGarbage demoClient "42"])⟩ : St) =
              ⟨ss.length + 2, createEvent worldPendingGarbage demoClient rb ::
                pollTrace (statusEvent worldPendingGarbage demoClient (TrimSuffix b "\n"))
                  (ss.length + 1)⟩ ∧
            sleeps (createEvent worldPendingGarbage demoClient (instanceBody demoInstance) ::
              (pollTrace (statusEvent worldPendingGarbage demoClient "42") 1 ++
                [statusEvent worldPendingGarbage demoClient "42"])) = ss.length + 1) ∨
          (∃ e, FetchFails worldPendingGarbage demoClient (1 + ss.length)
              (endJob ⟨"pending"⟩ ss) e ∧
            (Except.error (.lib "invalid character looking for beginning of value") :
              Except GoError Instance) = .error e ∧
            (⟨3, createEvent worldPendingGarbage demoClient (instanceBody demoInstance) ::
              (pollTrace (statusEvent worldPendingGarbage demoClient "42") 1 ++
                [statusEvent worldPendingGarbage demoClient "42"])⟩ : St) =
              ⟨ss.length + 2, createEvent worldPendingGarbage demoClient rb ::
                (pollTrace (statusEvent worldPendingGarbage demoClient (TrimSuffix b "\n"))
                  ss.length ++
                  [statusEvent worldPendingGarbage demoClient (TrimSuffix b "\n")])⟩ ∧
            sleeps (createEvent worldPendingGarbage demoClient (instanceBody demoInstance) ::
              (pollTrace (statusEvent worldPendingGarbage demoClient "42") 1 ++
                [statusEvent worldPendingGarbage demoClient "42"])) = ss.length)))) :=
  have hp := sleep_after_every_decoded_fetch worldPendingPendingSuccess demoClient
    demoInstance "vm1.example"
  have hg := sleep_after_every_decoded_fetch worldPendingGarbage demoClient
    demoInstance "vm1.example"
  have hn := sleep_after_every_decoded_fetch worldDoubleNewline demoClient
    demoInstance "vm1.example"
  ⟨hp.1 (instanceBody demoInstance) "42\n" ["pending", "pending"] 0 "success"
      ⟨rfl, rfl, rfl⟩ ⟨rfl, rfl⟩ rfl
      ⟨by decide, ⟨_, rfl, rfl⟩, by decide, ⟨_, rfl, rfl⟩, trivial⟩ (Or.inl rfl) ⟨_, rfl, rfl⟩,
    hg.2.1 (instanceBody demoInstance) "42\n" ["pending"] 0
      (.lib "invalid character looking for beginning of value")
      ⟨rfl, rfl, rfl⟩ ⟨rfl, rfl⟩ rfl ⟨by decide, ⟨_, rfl, rfl⟩, trivial⟩
      (Or.inr ⟨"<html>", rfl, rfl⟩),
    hn.2.2.1 (instanceBody demoInstance) "42\n\n"
      (.lib "net/url: invalid control character in URL") 0 ⟨rfl, rfl, rfl⟩ ⟨rfl, rfl⟩ rfl,
    hg.2.2.2.1 2 (.error (.lib "invalid character looking for beginning of value"))
      ⟨3, createEvent worldPendingGarbage demoClient (instanceBody demoInstance) ::
        (pollTrace (statusEvent worldPendingGarbage demoClient "42") 1 ++
          [statusEvent worldPendingGarbage demoClient "42"])⟩ rfl⟩

end Ganeti
